import Mathlib

/-!
Verification of the browser video playback engine
(demux → decode → buffer → schedule → composite pipeline).

Shallow embedding of the sources:
- `src/apps/web/src/lib/playback/types.ts` (core types, defaults, and the
  `VideoDecoderManager` class)
- `src/apps/web/src/lib/playback/playback-engine.ts` (`PlaybackEngine`)
- `src/apps/web/src/lib/playback/demuxer.ts` (`MP4Demuxer`, avcC serialization)
- `src/apps/web/src/lib/playback/canvas-compositor.ts` (`CanvasCompositor`)
- `src/unnamed/part_006` (`FrameScheduler`)

JavaScript numbers are embedded as rationals (`ℚ`); machine-level float
rounding is not modelled.  All components run on a single logical thread:
state-mutating entry points (public methods, animation-frame callbacks,
decoder output callbacks, promise continuations) are embedded as pure
state-transition functions, and a system trace is a list of such events.
-/

namespace Playback

/-- `PlaybackState` union type, `types.ts` lines 5-12. -/
inductive PlaybackState where
  | idle
  | loading
  | ready
  | playing
  | paused
  | seeking
  | error
  deriving DecidableEq, Repr

/-- `DecodedFrame` (`types.ts` lines 14-18): one decoded picture with its
presentation timestamp and duration in microseconds.  The underlying
`VideoFrame` image resource is opaque to all verified claims; two buffer
entries are compared structurally (the buffer never holds two distinct
live resources with equal timestamp and duration in the modelled traces). -/
structure DecodedFrame where
  timestampUs : ℚ
  durationUs : ℚ
  deriving DecidableEq, Repr

/-- `DemuxedSample` (`demuxer.ts` lines 15-20): one coded access unit. -/
structure DemuxedSample where
  data : List ℕ
  timestampUs : ℚ
  durationUs : ℚ
  isKeyframe : Bool
  deriving DecidableEq, Repr

/-- `EncodedVideoChunk` as built in `VideoDecoderManager.processQueue`
(`types.ts` lines 264-269): type key/delta, timestamp, duration, payload. -/
structure EncodedChunk where
  isKey : Bool
  timestampUs : ℚ
  durationUs : ℚ
  data : List ℕ
  deriving DecidableEq, Repr

/-- The WebCodecs `VideoFrame` fields read by `handleDecodedFrame`
(`types.ts` lines 219-224): `timestamp` and the nullable `duration`. -/
structure VideoFrameModel where
  timestamp : ℚ
  duration : Option ℚ
  deriving DecidableEq, Repr

/-- `VideoTrackInfo` (`types.ts` lines 20-29). -/
structure VideoTrackInfo where
  codec : String
  codedWidth : ℚ
  codedHeight : ℚ
  displayWidth : ℚ
  displayHeight : ℚ
  durationMs : ℚ
  frameRate : ℚ
  bitrate : ℚ
  deriving DecidableEq, Repr

/-- `AudioTrackInfo` (`types.ts` lines 31-37). -/
structure AudioTrackInfo where
  codec : String
  sampleRate : ℚ
  numberOfChannels : ℚ
  durationMs : ℚ
  bitrate : ℚ
  deriving DecidableEq, Repr

/-- `MediaInfo` (`types.ts` lines 39-43). -/
structure MediaInfo where
  durationMs : ℚ
  video : Option VideoTrackInfo
  audio : Option AudioTrackInfo
  deriving DecidableEq, Repr

/-- `PlaybackEngineConfig` (`types.ts` lines 47-54). -/
structure PlaybackEngineConfig where
  bufferSize : ℕ
  targetFps : ℚ
  loop : Bool
  deriving DecidableEq, Repr

/-- `DEFAULT_CONFIG` (`types.ts` lines 56-60). -/
def DEFAULT_CONFIG : PlaybackEngineConfig :=
  { bufferSize := 30, targetFps := 0, loop := false }

/-!
## Pure frame-buffer operations

`VideoDecoderManager.getFrameAtTime` and the eviction loop of
`VideoDecoderManager.consumeFramesUpTo` are pure functions of the
`decodedFrames` array; they are embedded directly.
-/

/-- One iteration of the `for (const frame of this.decodedFrames)` loop in
`VideoDecoderManager.getFrameAtTime` (`types.ts` lines 291-297).  The
accumulator is `bestFrame` together with `bestDiff`; the initial
`bestDiff = Number.POSITIVE_INFINITY` is represented by `none` (the first
frame always satisfies `diff < bestDiff`). -/
def getFrameStep (timeUs : ℚ) (best : Option (DecodedFrame × ℚ))
    (frame : DecodedFrame) : Option (DecodedFrame × ℚ) :=
  let diff := |frame.timestampUs - timeUs|
  match best with
  | none => some (frame, diff)
  | some (bestFrame, bestDiff) =>
      if diff < bestDiff then some (frame, diff) else some (bestFrame, bestDiff)

/-- `VideoDecoderManager.getFrameAtTime` (`types.ts` lines 286-300): linear
scan selecting the buffered frame with the smallest `|timestampUs - timeUs|`;
`null` when the buffer is empty. -/
def getFrameAtTime (decodedFrames : List DecodedFrame) (timeUs : ℚ) :
    Option DecodedFrame :=
  (decodedFrames.foldl (getFrameStep timeUs) none).map Prod.fst

/-- The `while` loop of `VideoDecoderManager.consumeFramesUpTo`
(`types.ts` lines 306-325): repeatedly `shift` the first buffered frame while
its end time `timestampUs + durationUs` is at or before `timeUs`; stop at the
first frame whose end time is later.  Returns
`(consumed, new decodedFrames)`. -/
def consumeFramesUpTo : List DecodedFrame → ℚ → List DecodedFrame × List DecodedFrame
  | [], _ => ([], [])
  | frame :: rest, timeUs =>
      if frame.timestampUs + frame.durationUs ≤ timeUs then
        let res := consumeFramesUpTo rest timeUs
        (frame :: res.1, res.2)
      else ([], frame :: rest)

/-!
## Canvas compositor (`canvas-compositor.ts`)

The compositor's drawing context, layer callbacks, and the asynchronous
`createImageBitmap` conversion are browser resources; the verified claims
only involve `calculateDrawRect` (pure geometry) and the presence of a
compositor instance, so the structure records the fields those read.
-/

/-- Scaling mode of `CompositorConfig` (`canvas-compositor.ts` line 24). -/
inductive ScalingMode where
  | contain
  | cover
  | fill
  deriving DecidableEq, Repr

/-- `CompositorConfig` (`canvas-compositor.ts` lines 18-25). -/
structure CompositorConfig where
  backgroundColor : String
  maintainAspectRatio : Bool
  scalingMode : ScalingMode
  deriving DecidableEq, Repr

/-- `DEFAULT_CONFIG` of the compositor (`canvas-compositor.ts` lines 27-31). -/
def compositorDefaultConfig : CompositorConfig :=
  { backgroundColor := "#000000", maintainAspectRatio := true,
    scalingMode := .contain }

/-- The draw rectangle returned by `calculateDrawRect`. -/
structure DrawRect where
  x : ℚ
  y : ℚ
  width : ℚ
  height : ℚ
  deriving DecidableEq, Repr

/-- `CanvasCompositor.calculateDrawRect` (`canvas-compositor.ts` lines
211-254): with aspect-ratio maintenance off or `fill` mode, the full target
area; otherwise `contain` fits the whole source inside the target and `cover`
fills the target, in both cases centering via `x = (tw - w)/2`,
`y = (th - h)/2`. -/
def calculateDrawRect (config : CompositorConfig)
    (sourceWidth sourceHeight targetWidth targetHeight : ℚ) : DrawRect :=
  if ¬config.maintainAspectRatio ∨ config.scalingMode = .fill then
    { x := 0, y := 0, width := targetWidth, height := targetHeight }
  else
    let sourceAspect := sourceWidth / sourceHeight
    let targetAspect := targetWidth / targetHeight
    let wh :=
      if config.scalingMode = .contain then
        -- Fit entire video within canvas
        if targetAspect < sourceAspect then
          (targetWidth, targetWidth / sourceAspect)
        else
          (targetHeight * sourceAspect, targetHeight)
      else if targetAspect < sourceAspect then
        -- Cover - fill canvas, potentially cropping video
        (targetHeight * sourceAspect, targetHeight)
      else
        -- Cover - fill canvas, potentially cropping video
        (targetWidth, targetWidth / sourceAspect)
    -- Center the video
    { x := (targetWidth - wh.1) / 2, y := (targetHeight - wh.2) / 2,
      width := wh.1, height := wh.2 }

/-- `CanvasCompositor` instance state (`canvas-compositor.ts` lines 33-42):
the configuration, the recorded source video dimensions, the owned clone of
the current frame and its staleness token.  The canvas element, 2D context
and layer map are browser-side resources not inspected by any claim. -/
structure CanvasCompositor where
  config : CompositorConfig
  videoWidth : ℚ
  videoHeight : ℚ
  currentFrame : Option DecodedFrame
  frameToken : ℕ
  deriving DecidableEq, Repr

/-- A fresh compositor (`canvas-compositor.ts` constructor, lines 44-61,
with the default config). -/
def CanvasCompositor.new : CanvasCompositor :=
  { config := compositorDefaultConfig, videoWidth := 0, videoHeight := 0,
    currentFrame := none, frameToken := 0 }

/-- `CanvasCompositor.setVideoDimensions` (`canvas-compositor.ts` lines
66-69). -/
def CanvasCompositor.setVideoDimensions (c : CanvasCompositor) (w h : ℚ) :
    CanvasCompositor :=
  { c with videoWidth := w, videoHeight := h }

/-- `CanvasCompositor.drawFrame` (`canvas-compositor.ts` lines 115-126):
clone the frame, release the previous copy, bump the staleness token and
re-render (the render pass paints the canvas; no modelled state). -/
def CanvasCompositor.drawFrame (c : CanvasCompositor) (frame : DecodedFrame) :
    CanvasCompositor :=
  { c with currentFrame := some frame, frameToken := c.frameToken + 1 }

/-- `CanvasCompositor.exportFrame` (`canvas-compositor.ts` lines 300-302):
`canvas.toDataURL("image/" ++ format, quality)`.  `toDataURL` is a browser
API whose output bytes are opaque; only the produced data-URI scheme prefix
is modelled.  The verified claims observe only whether a string is returned
at all. -/
def CanvasCompositor.exportFrame (_c : CanvasCompositor) (format : String)
    (_quality : ℚ) : String :=
  "data:image/" ++ format ++ ";base64,"

/-!
## Frame scheduler (`src/unnamed/part_006`)

The scheduler advances a virtual clock from animation-frame callbacks.
`requestAnimationFrame`/`cancelAnimationFrame` are modelled by the flag
`rafPending`; an `onFrame` callback can only run while a request is pending,
and consumes it.  Events emitted through the `EventEmitter` are returned so
the engine can dispatch them to its subscriptions.
-/

/-- Events of `FrameSchedulerEvents` (`part_006` lines 9-14). -/
inductive SchedEvent where
  | tick (currentTimeUs : ℚ) (deltaMs : ℚ)
  | play
  | pause
  | seek (timeUs : ℚ)
  deriving DecidableEq, Repr

/-- `FrameScheduler` instance state (`part_006` lines 16-24). -/
structure FrameScheduler where
  isPlaying : Bool
  currentTimeUs : ℚ
  durationUs : ℚ
  playbackRate : ℚ
  loop : Bool
  rafPending : Bool
  lastFrameTime : Option ℚ
  deriving DecidableEq, Repr

/-- A fresh scheduler (field initializers, `part_006` lines 17-24). -/
def FrameScheduler.new : FrameScheduler :=
  { isPlaying := false, currentTimeUs := 0, durationUs := 0,
    playbackRate := 1, loop := false, rafPending := false,
    lastFrameTime := none }

/-- `FrameScheduler.setDuration` (`part_006` lines 29-31). -/
def FrameScheduler.setDuration (s : FrameScheduler) (durationUs : ℚ) :
    FrameScheduler :=
  { s with durationUs := durationUs }

/-- `FrameScheduler.setPlaybackRate` (`part_006` lines 36-38): clamp to
`[0.1, 4.0]`. -/
def FrameScheduler.setPlaybackRate (s : FrameScheduler) (rate : ℚ) :
    FrameScheduler :=
  { s with playbackRate := max (1/10) (min 4 rate) }

/-- `FrameScheduler.setLoop` (`part_006` lines 43-45). -/
def FrameScheduler.setLoop (s : FrameScheduler) (loop : Bool) :
    FrameScheduler :=
  { s with loop := loop }

/-- `FrameScheduler.play` (`part_006` lines 50-59): idempotent when already
running; resets `lastFrameTime` and schedules a frame. -/
def FrameScheduler.play (s : FrameScheduler) : FrameScheduler × List SchedEvent :=
  if s.isPlaying then (s, [])
  else
    ({ s with isPlaying := true, lastFrameTime := none, rafPending := true },
      [.play])

/-- `FrameScheduler.pause` (`part_006` lines 64-72): idempotent when already
stopped; cancels the pending animation-frame request. -/
def FrameScheduler.pause (s : FrameScheduler) : FrameScheduler × List SchedEvent :=
  if ¬s.isPlaying then (s, [])
  else ({ s with isPlaying := false, rafPending := false }, [.pause])

/-- `FrameScheduler.seek` (`part_006` lines 88-97): clamp to `[0, duration]`,
set the time synchronously, emit `seek`, and when playing clear
`lastFrameTime` so the next tick computes no delta across the jump. -/
def FrameScheduler.seek (s : FrameScheduler) (timeUs : ℚ) :
    FrameScheduler × List SchedEvent :=
  let clampedTime := max 0 (min timeUs s.durationUs)
  let s := { s with currentTimeUs := clampedTime }
  let s := if s.isPlaying then { s with lastFrameTime := none } else s
  (s, [.seek clampedTime])

/-- `FrameScheduler.seekMs` (`part_006` lines 102-104). -/
def FrameScheduler.seekMs (s : FrameScheduler) (timeMs : ℚ) :
    FrameScheduler × List SchedEvent :=
  s.seek (timeMs * 1000)

/-- `FrameScheduler.getCurrentTimeMs` (`part_006` lines 116-118). -/
def FrameScheduler.getCurrentTimeMs (s : FrameScheduler) : ℚ :=
  s.currentTimeUs / 1000

/-- The delta computation of `FrameScheduler.onFrame` (`part_006` lines
174-175): `lastFrameTime !== null ? timestamp - lastFrameTime : 0`. -/
def FrameScheduler.deltaMsOf (s : FrameScheduler) (timestamp : ℚ) : ℚ :=
  match s.lastFrameTime with
  | some lastTime => timestamp - lastTime
  | none => 0

/-- `FrameScheduler.onFrame` (`part_006` lines 168-198), the animation-frame
callback: compute the wall-clock delta, advance the virtual clock by
`deltaMs * 1000 * playbackRate`, and at/past the duration either wrap
(loop) or clamp to the duration and stop without rescheduling.  The caller
(the host's animation-frame dispatch) has consumed the pending request, so
`rafPending` is false on entry; `scheduleFrame` sets it again. -/
def FrameScheduler.onFrame (s : FrameScheduler) (timestamp : ℚ) :
    FrameScheduler × List SchedEvent :=
  if ¬s.isPlaying then (s, [])
  else
    let deltaMs := s.deltaMsOf timestamp
    let s := { s with lastFrameTime := some timestamp }
    let advanceUs := deltaMs * 1000 * s.playbackRate
    let s := { s with currentTimeUs := s.currentTimeUs + advanceUs }
    if s.durationUs ≤ s.currentTimeUs then
      if s.loop then
        let s := { s with currentTimeUs := s.currentTimeUs % s.durationUs }
        ({ s with rafPending := true }, [.tick s.currentTimeUs deltaMs])
      else
        -- clamp to duration, pause(), return without scheduling
        let s := { s with currentTimeUs := s.durationUs }
        let res := s.pause
        (res.1, res.2)
    else
      ({ s with rafPending := true }, [.tick s.currentTimeUs deltaMs])

/-!
## MP4 demuxer (`demuxer.ts`)

mp4box.js itself is an external library; its parsed box objects are embedded
as data (`JsBinary`, `AvcCBox`, `StsdEntry`, `Movie`), and the repository's
own code operating on them (`serializeAvcC`, `getCodecDescription`,
`createVideoDecoderConfig`, `handleReady`, …) is embedded faithfully.
-/

/-- The JavaScript values reaching `toUint8Array` (`demuxer.ts` lines
375-401): `Uint8Array`s, `ArrayBuffer`s, other `ArrayBufferView`s, plain
number arrays, objects carrying a `data` field, and nullish/other falsy
values. -/
inductive JsBinary where
  | u8 (bytes : List ℕ)
  | buf (bytes : List ℕ)
  | view (bytes : List ℕ)
  | arr (nums : List ℚ)
  | obj (data : JsBinary)
  | nullish
  deriving DecidableEq, Repr

/-- `normalizeByte` (`demuxer.ts` lines 370-373):
`Math.max(0, Math.floor(value)) % 256`. -/
def normalizeByte (value : ℚ) : ℕ :=
  ((max 0 ⌊value⌋).toNat) % 256

/-- `u16be` (`demuxer.ts` lines 362-368): big-endian 16-bit encoding of a
`Uint8Array.byteLength` (a natural number, so the `Math.max(0, Math.floor …)`
normalization is the identity). -/
def u16be (value : ℕ) : List ℕ :=
  [normalizeByte ((value / 256 : ℕ) : ℚ), normalizeByte (value : ℚ)]

/-- `concat` (`demuxer.ts` lines 403-415): concatenation of byte chunks. -/
def concatBytes (chunks : List (List ℕ)) : List ℕ :=
  chunks.flatten

/-- `toUint8Array` (`demuxer.ts` lines 375-401).  Order matters: the
`typeof value === "object"` branch with a truthy `data` field is tested
before the `ArrayBuffer`/`ArrayBufferView` checks, and falls through when
`data` is absent (a plain object then reaches no later check and the final
`return null`).  An absent/falsy `data` field is `JsBinary.nullish`. -/
def toUint8Array : JsBinary → Option (List ℕ)
  | .nullish => none
  | .u8 bytes => some bytes
  | .obj .nullish => none
  | .obj data => toUint8Array data
  | .buf bytes => some bytes
  | .view bytes => some bytes
  | .arr nums => some (nums.map normalizeByte)

/-- The mp4box `avcC` box object (`demuxer.ts` lines 289-298).  mp4box
parses `configurationVersion`…`AVCLevelIndication` as byte-sized integers and
`lengthSizeMinusOne` as a 2-bit field; they are embedded as the numbers the
code reads. -/
structure AvcCBox where
  configurationVersion : ℚ
  AVCProfileIndication : ℚ
  profile_compatibility : ℚ
  AVCLevelIndication : ℚ
  lengthSizeMinusOne : ℕ
  SPS : List JsBinary
  PPS : List JsBinary
  ext : JsBinary
  deriving DecidableEq, Repr

/-- `serializeAvcC` (`demuxer.ts` lines 300-360): rebuild the
AVCDecoderConfigurationRecord bytes from the parsed box; `undefined` when the
SPS or PPS lists yield no usable bytes.  (The `!avcC`/`typeof`/
`Array.isArray` guards are vacuously satisfied by the typed embedding.) -/
def serializeAvcC (avcC : AvcCBox) : Option (List ℕ) :=
  let spsList := (avcC.SPS.map toUint8Array).filterMap
    (fun v => match v with
      | some bytes => if bytes.length > 0 then some bytes else none
      | none => none)
  let ppsList := (avcC.PPS.map toUint8Array).filterMap
    (fun v => match v with
      | some bytes => if bytes.length > 0 then some bytes else none
      | none => none)
  if spsList.length = 0 ∨ ppsList.length = 0 then none
  else
    -- 6-byte header, then SPS array, then 1-byte PPS count, then PPS array,
    -- then optional extension bytes.
    let header : List ℕ :=
      [normalizeByte avcC.configurationVersion,
        normalizeByte avcC.AVCProfileIndication,
        normalizeByte avcC.profile_compatibility,
        normalizeByte avcC.AVCLevelIndication,
        252 + avcC.lengthSizeMinusOne % 4,
        224 + spsList.length % 32]
    let spsParts := spsList.map (fun sps => u16be sps.length ++ sps)
    let ppsParts := ppsList.map (fun pps => u16be pps.length ++ pps)
    let extPart : List (List ℕ) :=
      match toUint8Array avcC.ext with
      | some ext => if ext.length > 0 then [ext] else []
      | none => []
    let out := concatBytes ([header] ++ spsParts
      ++ [[normalizeByte (ppsList.length : ℚ)]] ++ ppsParts ++ extPart)
    if out.length > 0 then some out else none

/-- A non-avcC codec-description box as read by `getCodecDescription`
(`demuxer.ts` lines 216-219): only its optional raw `data` field is read. -/
structure GenericBox where
  data : Option JsBinary
  deriving DecidableEq, Repr

/-- The parsed `avcC` box as it appears in an stsd entry: the configuration
record object, plus the optional raw `data` field consulted as a fallback. -/
structure AvcCEntry where
  record : AvcCBox
  data : Option JsBinary
  deriving DecidableEq, Repr

/-- One `stsd.entries` element with the description boxes the loop in
`getCodecDescription` probes, in its order: `avcC`, `hvcC`, `vpcC`, `av1C`,
`esds`. -/
structure StsdEntry where
  avcC : Option AvcCEntry
  hvcC : Option GenericBox
  vpcC : Option GenericBox
  av1C : Option GenericBox
  esds : Option GenericBox
  deriving DecidableEq, Repr

/-- The `stsd` box reached by the `trak?.mdia?.minf?.stbl?.stsd`
navigation. -/
structure StsdBox where
  entries : List StsdEntry
  deriving DecidableEq, Repr

/-- The generic-box arm of the loop body in `getCodecDescription`: when the
box is present and its `data` field is a `Uint8Array`, return it. -/
def tryDataField (box : Option GenericBox) : Option (List ℕ) :=
  match box with
  | none => none
  | some b =>
      match b.data with
      | some (JsBinary.u8 bytes) => some bytes
      | _ => none

/-- The `avcC` arm of the loop in `getCodecDescription` (`demuxer.ts` lines
207-220): first try `serializeAvcC`, then fall back to the raw `data`
field. -/
def tryAvcC (box : Option AvcCEntry) : Option (List ℕ) :=
  match box with
  | none => none
  | some b =>
      match serializeAvcC b.record with
      | some desc => some desc
      | none =>
          match b.data with
          | some (JsBinary.u8 bytes) => some bytes
          | _ => none

/-- `MP4Demuxer.getCodecDescription` (`demuxer.ts` lines 186-224): navigate
to the first `stsd` entry and probe the description boxes in order. -/
def getCodecDescription (stsd : Option StsdBox) : Option (List ℕ) :=
  match stsd with
  | none => none
  | some box =>
      match box.entries.head? with
      | none => none
      | some entry =>
          (tryAvcC entry.avcC).orElse fun _ =>
          (tryDataField entry.hvcC).orElse fun _ =>
          (tryDataField entry.vpcC).orElse fun _ =>
          (tryDataField entry.av1C).orElse fun _ =>
          tryDataField entry.esds

/-- The `track.video` sub-object of an mp4box track. -/
structure VideoDims where
  width : ℚ
  height : ℚ
  deriving DecidableEq, Repr

/-- The `track.audio` sub-object of an mp4box track. -/
structure AudioProps where
  sample_rate : ℚ
  channel_count : ℚ
  deriving DecidableEq, Repr

/-- An mp4box `Track` as read by the demuxer, together with the `stsd` box
that `getTrackById(track.id)?.mdia?.minf?.stbl?.stsd` reaches for it. -/
structure MovieTrack where
  id : ℕ
  codec : String
  video : Option VideoDims
  audio : Option AudioProps
  duration : ℚ
  nb_samples : ℚ
  bitrate : ℚ
  stsd : Option StsdBox
  deriving DecidableEq, Repr

/-- The mp4box `Movie` info passed to `onReady`. -/
structure Movie where
  duration : ℚ
  timescale : ℚ
  videoTracks : List MovieTrack
  audioTracks : List MovieTrack
  deriving DecidableEq, Repr

/-- The WebCodecs `VideoDecoderConfig` assembled by the demuxer
(`demuxer.ts` lines 166-171). -/
structure VideoDecoderConfig where
  codec : String
  codedWidth : ℚ
  codedHeight : ℚ
  description : Option (List ℕ)
  deriving DecidableEq, Repr

/-- `MP4Demuxer.extractVideoTrackInfo` (`demuxer.ts` lines 118-132).
(Division is rational division; the JS `Infinity`/`NaN` results for
zero denominators are not distinguished — no claim reads `frameRate`.) -/
def extractVideoTrackInfo (track : MovieTrack) (timescale : ℚ) :
    VideoTrackInfo :=
  { codec := track.codec,
    codedWidth := (track.video.map VideoDims.width).getD 0,
    codedHeight := (track.video.map VideoDims.height).getD 0,
    displayWidth := (track.video.map VideoDims.width).getD 0,
    displayHeight := (track.video.map VideoDims.height).getD 0,
    durationMs := track.duration / timescale * 1000,
    frameRate := track.nb_samples / (track.duration / timescale),
    bitrate := track.bitrate }

/-- `MP4Demuxer.extractAudioTrackInfo` (`demuxer.ts` lines 134-145). -/
def extractAudioTrackInfo (track : MovieTrack) (timescale : ℚ) :
    AudioTrackInfo :=
  { codec := track.codec,
    sampleRate := (track.audio.map AudioProps.sample_rate).getD 0,
    numberOfChannels := (track.audio.map AudioProps.channel_count).getD 0,
    durationMs := track.duration / timescale * 1000,
    bitrate := track.bitrate }

/-- `MP4Demuxer.createVideoDecoderConfig` (`demuxer.ts` lines 147-172): look
up the codec description (exceptions inside `getCodecDescription` are caught
and leave it `undefined`; the pure embedding cannot throw), and fail loudly
for an `avc1`-coded track without one. -/
def createVideoDecoderConfig (track : MovieTrack) :
    Except String VideoDecoderConfig :=
  let codecDescription := getCodecDescription track.stsd
  if track.codec.startsWith "avc1" ∧ codecDescription = none then
    Except.error "Missing H.264 (avcC) codec description for VideoDecoderConfig"
  else
    Except.ok
      { codec := track.codec,
        codedWidth := (track.video.map VideoDims.width).getD 0,
        codedHeight := (track.video.map VideoDims.height).getD 0,
        description := codecDescription }

/-!
## Video decoder manager (`types.ts` lines 70-455, class `VideoDecoderManager`)

The manager owns a WebCodecs `VideoDecoder`, an `MP4Demuxer`, the pending
sample queue and the decoded-frame buffer.  External devices are modelled as
follows:

* the `VideoDecoder` is the `decoderConfigured` flag plus `inFlightChunks`,
  the FIFO of submitted-but-not-yet-output chunks; the WebCodecs decoder
  invokes the output callback once per submitted chunk, in submission order,
  with the chunk's timestamp and duration on the produced `VideoFrame`
  (the engine assumes decode order equals presentation order);
* the load promise is `loadPromise` (`none` before any `load`); the
  `loadPromiseReject` handle the class keeps is `rejectHeld` — `reset` nulls
  the handle without settling the promise;
* mp4box's sample-table seek computation is the oracle `mp4boxSeekOffset`
  (an external library computation; theorems quantify over it);
* events emitted through the `EventEmitter` are returned alongside the new
  state so subscribers (the `PlaybackEngine`) can be run on them.
-/

/-- The load-promise state of the most recent `load` call. -/
inductive LoadPromise where
  | pending
  | resolved (info : MediaInfo)
  | rejectedWith (msg : String)
  deriving DecidableEq, Repr

/-- `VideoDecoderManagerEvents` (`types.ts` lines 83-88). -/
inductive MgrEvent where
  | stateChange (state : PlaybackState)
  | frameDecoded (frame : DecodedFrame)
  | infoReady (info : MediaInfo)
  | errorEvt (msg : String)
  deriving DecidableEq, Repr

/-- `VideoDecoderManager` instance state (`types.ts` lines 90-109). -/
structure VideoDecoderManager where
  decoderConfigured : Bool
  decoderConfig : Option VideoDecoderConfig
  inFlightChunks : List EncodedChunk
  demuxerAlive : Bool
  mp4boxSeekOffset : ℚ → ℕ
  mediaInfo : Option MediaInfo
  state : PlaybackState
  pendingSamples : List DemuxedSample
  decodedFrames : List DecodedFrame
  maxBufferedFrames : ℕ
  isDecoding : Bool
  hasAbortController : Bool
  abortSignalled : Bool
  rejectHeld : Bool
  loadPromise : Option LoadPromise
  sourceBufferLen : Option ℕ
  hasFullSourceBuffered : Bool
  hasDemuxerCallbacks : Bool

/-- `new VideoDecoderManager(maxBufferedFrames)` (`types.ts` lines
91-109). -/
def VideoDecoderManager.new (maxBufferedFrames : ℕ) : VideoDecoderManager :=
  { decoderConfigured := false, decoderConfig := none, inFlightChunks := [],
    demuxerAlive := false, mp4boxSeekOffset := fun _ => 0, mediaInfo := none,
    state := .idle, pendingSamples := [], decodedFrames := [],
    maxBufferedFrames := maxBufferedFrames, isDecoding := false,
    hasAbortController := false, abortSignalled := false, rejectHeld := false,
    loadPromise := none, sourceBufferLen := none,
    hasFullSourceBuffered := false, hasDemuxerCallbacks := false }

/-- `VideoDecoderManager.setState` (`types.ts` lines 111-116): emit
`stateChange` only on an actual change. -/
def VideoDecoderManager.setState (s : VideoDecoderManager)
    (newState : PlaybackState) : VideoDecoderManager × List MgrEvent :=
  if s.state ≠ newState then
    ({ s with state := newState }, [.stateChange newState])
  else (s, [])

/-- `VideoDecoderManager.clearBuffers` (`types.ts` lines 392-399): close and
drop all buffered frames, drop all pending samples. -/
def VideoDecoderManager.clearBuffers (s : VideoDecoderManager) :
    VideoDecoderManager :=
  { s with decodedFrames := [], pendingSamples := [] }

/-- `VideoDecoderManager.failLoad` (`types.ts` lines 384-390): transition to
`error`, emit the error event, abort any in-flight fetch, reject a pending
load promise, and null the reject handle. -/
def VideoDecoderManager.failLoad (s : VideoDecoderManager) (msg : String) :
    VideoDecoderManager × List MgrEvent :=
  let r := s.setState .error
  let s := r.1
  let s := if s.hasAbortController then { s with abortSignalled := true } else s
  let s :=
    if s.rejectHeld then { s with loadPromise := some (.rejectedWith msg) }
    else s
  ({ s with rejectHeld := false }, r.2 ++ [.errorEvt msg])

/-- The `while` loop of `VideoDecoderManager.processQueue` (`types.ts` lines
255-277): shift samples off the queue and submit them to the decoder as
`EncodedVideoChunk`s while the queue is nonempty and the buffered-frame
count is below the maximum.  The buffered-frame count cannot change during
the synchronous loop (decoder outputs arrive asynchronously), so it is a
constant here.  Returns `(remaining queue, submitted chunks)`. -/
def drainLoop (maxBufferedFrames bufferedLen : ℕ) :
    List DemuxedSample → List DemuxedSample × List EncodedChunk
  | [] => ([], [])
  | sample :: rest =>
      if bufferedLen < maxBufferedFrames then
        let res := drainLoop maxBufferedFrames bufferedLen rest
        (res.1,
          { isKey := sample.isKeyframe, timestampUs := sample.timestampUs,
            durationUs := sample.durationUs, data := sample.data } :: res.2)
      else (sample :: rest, [])

/-- `VideoDecoderManager.processQueue` (`types.ts` lines 243-280): gated on
not already decoding, a configured decoder, a nonempty queue, and the
buffered-frame count being below `maxBufferedFrames`; then drains the queue
into decoder submissions.  (`decoder.decode` throws only on a closed or
unconfigured decoder, which the `decoderConfigured` gate excludes here.) -/
def VideoDecoderManager.processQueue (s : VideoDecoderManager) :
    VideoDecoderManager × List MgrEvent :=
  if s.isDecoding ∨ ¬s.decoderConfigured ∨ s.pendingSamples.isEmpty then
    (s, [])
  else if s.maxBufferedFrames ≤ s.decodedFrames.length then
    -- Don't buffer too far ahead
    (s, [])
  else
    let s := { s with isDecoding := true }
    let res := drainLoop s.maxBufferedFrames s.decodedFrames.length
      s.pendingSamples
    ({ s with
        pendingSamples := res.1,
        inFlightChunks := s.inFlightChunks ++ res.2,
        isDecoding := false },
      [])

/-- `VideoDecoderManager.handleDecodedFrame` (`types.ts` lines 219-241), the
decoder output callback: wrap the `VideoFrame`, push it onto the buffer
unconditionally, emit `frameDecoded`, and re-kick `processQueue` when the
buffer is still below the maximum. -/
def VideoDecoderManager.handleDecodedFrame (s : VideoDecoderManager)
    (frame : VideoFrameModel) : VideoDecoderManager × List MgrEvent :=
  let decodedFrame : DecodedFrame :=
    { timestampUs := frame.timestamp, durationUs := frame.duration.getD 0 }
  let s := { s with decodedFrames := s.decodedFrames ++ [decodedFrame] }
  if s.decodedFrames.length < s.maxBufferedFrames then
    let r := s.processQueue
    (r.1, MgrEvent.frameDecoded decodedFrame :: r.2)
  else (s, [MgrEvent.frameDecoded decodedFrame])

/-- One output callback invocation from the decoder device: the oldest
in-flight chunk is decoded into a `VideoFrame` carrying its timestamp and
duration, and delivered to `handleDecodedFrame`. -/
def VideoDecoderManager.decoderOutput (s : VideoDecoderManager) :
    VideoDecoderManager × List MgrEvent :=
  match s.inFlightChunks with
  | [] => (s, [])
  | chunk :: rest =>
      VideoDecoderManager.handleDecodedFrame { s with inFlightChunks := rest }
        { timestamp := chunk.timestampUs, duration := some chunk.durationUs }

/-- `await this.decoder.flush()` (`types.ts` lines 344-346): the WebCodecs
decoder completes every queued decode, invoking the output callback once per
in-flight chunk in order, before the flush promise resolves. -/
def VideoDecoderManager.flushOutputs :
    VideoDecoderManager → List EncodedChunk → VideoDecoderManager × List MgrEvent
  | s, [] => (s, [])
  | s, chunk :: rest =>
      let r1 := s.handleDecodedFrame
        { timestamp := chunk.timestampUs, duration := some chunk.durationUs }
      let r2 := VideoDecoderManager.flushOutputs r1.1 rest
      (r2.1, r1.2 ++ r2.2)

/-- Decoder flush during a seek: drain the in-flight FIFO through the output
callback. -/
def VideoDecoderManager.flushDecoder (s : VideoDecoderManager) :
    VideoDecoderManager × List MgrEvent :=
  VideoDecoderManager.flushOutputs { s with inFlightChunks := [] }
    s.inFlightChunks

/-- The `onVideoSamples` demuxer callback (`types.ts` lines 141-144): append
to the pending queue and kick `processQueue`. -/
def VideoDecoderManager.onVideoSamples (s : VideoDecoderManager)
    (samples : List DemuxedSample) : VideoDecoderManager × List MgrEvent :=
  VideoDecoderManager.processQueue
    { s with pendingSamples := s.pendingSamples ++ samples }

/-- `VideoDecoderManager.consumeFramesUpTo` (`types.ts` lines 306-325):
evict the leading run of frames ended at or before `timeUs`, re-kick
`processQueue`, and return the evicted frames. -/
def VideoDecoderManager.consumeFramesUpTo (s : VideoDecoderManager)
    (timeUs : ℚ) :
    VideoDecoderManager × List MgrEvent × List DecodedFrame :=
  let res := Playback.consumeFramesUpTo s.decodedFrames timeUs
  let r := VideoDecoderManager.processQueue { s with decodedFrames := res.2 }
  (r.1, r.2, res.1)

/-- `VideoDecoderManager.reset` (`types.ts` lines 434-454): abort an
in-flight fetch, null the reject handle (without settling the promise),
drop the source buffer and demuxer callbacks, clear buffers, close the
decoder (discarding in-flight work), dispose the demuxer, clear media info
and return to `idle`.  External subscriptions are kept. -/
def VideoDecoderManager.reset (s : VideoDecoderManager) :
    VideoDecoderManager × List MgrEvent :=
  let s := if s.hasAbortController then { s with abortSignalled := true } else s
  let s := { s with
    hasAbortController := false, rejectHeld := false,
    sourceBufferLen := none, hasFullSourceBuffered := false,
    hasDemuxerCallbacks := false }
  let s := s.clearBuffers
  let s := { s with
    decoderConfigured := false, decoderConfig := none,
    inFlightChunks := [] }
  let s := { s with demuxerAlive := false }
  let s := { s with mediaInfo := none }
  s.setState .idle

/-- The synchronous part of `VideoDecoderManager.load` (`types.ts` lines
121-167): reset, enter `loading`, create the abort controller, install the
promise reject handle and the demuxer callbacks, construct the demuxer and
start the fetch.  Fetch settlement arrives later as a
`fetchResolved`/`fetchRejected` continuation. -/
def VideoDecoderManager.load (s : VideoDecoderManager) (_url : String) :
    VideoDecoderManager × List MgrEvent :=
  let r1 := s.reset
  let r2 := r1.1.setState .loading
  let s := { r2.1 with
    hasAbortController := true, abortSignalled := false,
    rejectHeld := true, loadPromise := some .pending,
    hasDemuxerCallbacks := true, demuxerAlive := true }
  (s, r1.2 ++ r2.2)

/-- A fetch rejection as observed by the `catch` in `load` (`types.ts` lines
161-165): the error's `name` for a non-2xx response is `"Error"` (a plain
`Error` thrown in `fetchAndDemux` line 182), for an aborted fetch — whether
aborted by the 15-second timeout (`fetchAndDemux` lines 171-174) or by an
explicit abort — a `DOMException` named `"AbortError"`. -/
inductive FetchError where
  | httpNotOk (status : ℕ)
  | abortError
  | otherError (name msg : String)
  deriving DecidableEq, Repr

/-- The `.name` of the rejection error reaching the `catch` in `load`. -/
def FetchError.errorName : FetchError → String
  | .httpNotOk _ => "Error"
  | .abortError => "AbortError"
  | .otherError name _ => name

/-- The `.message` of the rejection error. -/
def FetchError.errorMessage : FetchError → String
  | .httpNotOk status => "Failed to fetch video: " ++ toString status
  | .abortError => "The operation was aborted."
  | .otherError _ msg => msg

/-- The `catch` attached to `fetchAndDemux` in `load` (`types.ts` lines
161-165): route to `failLoad` unless the error is named `"AbortError"`. -/
def VideoDecoderManager.fetchRejected (s : VideoDecoderManager)
    (err : FetchError) : VideoDecoderManager × List MgrEvent :=
  if err.errorName ≠ "AbortError" then s.failLoad err.errorMessage
  else (s, [])

/-- The 15-second fetch timeout firing (`fetchAndDemux`, `types.ts` lines
171-174): the timer calls `abortController.abort()`, which makes the
in-flight `fetch` reject with a `DOMException` named `"AbortError"`; that
rejection reaches the `catch` in `load`. -/
def VideoDecoderManager.onFetchTimeout (s : VideoDecoderManager) :
    VideoDecoderManager × List MgrEvent :=
  let s := if s.hasAbortController then { s with abortSignalled := true } else s
  s.fetchRejected .abortError

/-- The successful continuation of `fetchAndDemux` (`types.ts` lines
185-197): record the fully buffered source and hand it to the demuxer
(`appendData`/`flush`); mp4box's resulting `onReady`/`onSamples` emissions
arrive as subsequent `demuxReady`/`videoSamples` continuations. -/
def VideoDecoderManager.fetchResolved (s : VideoDecoderManager)
    (byteLength : ℕ) : VideoDecoderManager × List MgrEvent :=
  ({ s with
    sourceBufferLen := some byteLength,
    hasFullSourceBuffered := true }, [])

/-- The `onVideoConfig` demuxer callback (`types.ts` lines 130-137) plus
`initializeDecoder` (`types.ts` lines 200-217): skip when the decoder is
already configured (re-seeks recreate the demuxer), otherwise construct and
configure the decoder and kick the queue for samples that arrived before
configuration. -/
def VideoDecoderManager.onVideoConfig (s : VideoDecoderManager)
    (config : VideoDecoderConfig) : VideoDecoderManager × List MgrEvent :=
  if s.decoderConfigured then (s, [])
  else
    let s := { s with decoderConfigured := true, decoderConfig := some config }
    s.processQueue

/-- The `onInfo` demuxer callback (`types.ts` lines 148-154): store the
media info, enter `ready`, emit `infoReady`, null the reject handle and
resolve the load promise (resolving an already-settled promise is a
no-op). -/
def VideoDecoderManager.onInfo (s : VideoDecoderManager) (info : MediaInfo) :
    VideoDecoderManager × List MgrEvent :=
  let s := { s with mediaInfo := some info }
  let r := s.setState .ready
  let s := r.1
  let s := { s with rejectHeld := false }
  let s :=
    if s.loadPromise = some .pending then
      { s with loadPromise := some (.resolved info) }
    else s
  (s, r.2 ++ [.infoReady info])

/-- `MP4Demuxer.handleReady` (`demuxer.ts` lines 79-116) wired to this
manager's demuxer callbacks, as invoked by mp4box's `onReady` (`demuxer.ts`
lines 48-64): build the `MediaInfo`, derive and deliver the video decoder
config (a throw from `createVideoDecoderConfig` is caught by the `onReady`
wrapper and routed to `callbacks.onError`, i.e. `failLoad`), derive the
audio config (`onAudioConfig` is a no-op), then deliver `onInfo`.
`setExtractionOptions`/`start` only affect mp4box internals. -/
def VideoDecoderManager.demuxOnReady (s : VideoDecoderManager) (m : Movie) :
    VideoDecoderManager × List MgrEvent :=
  let durationMs := m.duration / m.timescale * 1000
  let audioInfo := (m.audioTracks.head?).map
    (fun t => extractAudioTrackInfo t m.timescale)
  match m.videoTracks with
  | [] =>
      s.onInfo { durationMs := durationMs, video := none, audio := audioInfo }
  | track :: _ =>
      match createVideoDecoderConfig track with
      | .error msg => s.failLoad msg
      | .ok config =>
          let r1 := s.onVideoConfig config
          let r2 := r1.1.onInfo
            { durationMs := durationMs,
              video := some (extractVideoTrackInfo track m.timescale),
              audio := audioInfo }
          (r2.1, r1.2 ++ r2.2)

/-- `VideoDecoderManager.seek` (`types.ts` lines 337-382): enter `seeking`,
clear buffers, flush a configured decoder (whose in-flight outputs land in
the just-cleared buffer), then either rebuild the demuxer and re-append the
full source (seek to the start), or ask mp4box for a byte offset and
re-append a slice from there (parser emissions arrive as subsequent
continuations); finally `ready`. -/
def VideoDecoderManager.seek (s : VideoDecoderManager) (timeMs : ℚ) :
    VideoDecoderManager × List MgrEvent :=
  let r1 := s.setState .seeking
  let s := r1.1.clearBuffers
  let r2 := if s.decoderConfigured then s.flushDecoder else (s, [])
  let s := r2.1
  if timeMs ≤ 0 ∧ s.sourceBufferLen.isSome ∧ s.hasDemuxerCallbacks then
    -- dispose and rebuild mp4box state, re-append the full source once
    let s := { s with demuxerAlive := true, hasFullSourceBuffered := true }
    let r3 := s.setState .ready
    (r3.1, r1.2 ++ r2.2 ++ r3.2)
  else
    -- this.demuxer?.seek(timeMs) ?? 0
    let offset := if s.demuxerAlive then s.mp4boxSeekOffset timeMs else 0
    let s :=
      if offset ≠ 0 then
        -- re-append sourceBuffer.slice(offset) when in bounds: demuxer-only
        s
      else if ¬s.hasFullSourceBuffered ∧ s.sourceBufferLen.isSome then
        { s with hasFullSourceBuffered := true }
      else s
    let r3 := s.setState .ready
    (r3.1, r1.2 ++ r2.2 ++ r3.2)

/-- The standalone manager trace alphabet used by the buffer-bound claim:
demuxed sample arrivals, asynchronous decoder output callbacks, and
consume/clear calls. -/
inductive ManagerEvent where
  | videoSamples (samples : List DemuxedSample)
  | decoderOutput
  | consumeUpTo (timeUs : ℚ)
  | clear

/-- Apply one manager event. -/
def managerStep (s : VideoDecoderManager) : ManagerEvent → VideoDecoderManager
  | .videoSamples samples => (s.onVideoSamples samples).1
  | .decoderOutput => s.decoderOutput.1
  | .consumeUpTo timeUs => (s.consumeFramesUpTo timeUs).1
  | .clear => s.clearBuffers

/-- Run a manager trace. -/
def runManager (s : VideoDecoderManager) (events : List ManagerEvent) :
    VideoDecoderManager :=
  events.foldl managerStep s

/-!
## Playback engine (`playback-engine.ts`)

The engine composes the decoder manager, the frame scheduler and an optional
compositor.  `setupEventHandlers` (lines 45-94) subscribes the engine to the
decoder's `error`, `infoReady` and `frameDecoded` events (deliberately NOT
to its `stateChange`) and to the scheduler's `tick` and `seek` events (and
to nothing else: in particular not to the scheduler's `pause`).  Emissions
returned from a subordinate call are dispatched through those handlers at
the call site; the engine's own emissions (`stateChange`, `timeUpdate`,
`durationChange`, `error`) go to the host application.
-/

/-- `PlaybackEngine` instance state (`playback-engine.ts` lines 26-43). -/
structure PlaybackEngine where
  decoder : VideoDecoderManager
  scheduler : FrameScheduler
  compositor : Option CanvasCompositor
  config : PlaybackEngineConfig
  state : PlaybackState
  mediaInfo : Option MediaInfo
  lastRenderedFrame : Option DecodedFrame

/-- `new PlaybackEngine(config)` (`playback-engine.ts` lines 36-43): the
partial config argument is merged over `DEFAULT_CONFIG` by the caller. -/
def PlaybackEngine.new (config : PlaybackEngineConfig) : PlaybackEngine :=
  { decoder := VideoDecoderManager.new config.bufferSize,
    scheduler := FrameScheduler.new, compositor := none, config := config,
    state := .idle, mediaInfo := none, lastRenderedFrame := none }

/-- `PlaybackEngine.setState` (`playback-engine.ts` lines 96-101); the
`stateChange` emission goes to the host. -/
def PlaybackEngine.setState (e : PlaybackEngine) (newState : PlaybackState) :
    PlaybackEngine :=
  if e.state ≠ newState then { e with state := newState } else e

/-- The decoder `error` subscription (`playback-engine.ts` lines 50-53). -/
def PlaybackEngine.onDecoderError (e : PlaybackEngine) (_msg : String) :
    PlaybackEngine :=
  e.setState .error

/-- The decoder `infoReady` subscription (`playback-engine.ts` lines
55-71): store the info, feed the scheduler's duration and the compositor's
video dimensions, and leave `loading`/`idle` for `ready`. -/
def PlaybackEngine.onInfoReady (e : PlaybackEngine) (info : MediaInfo) :
    PlaybackEngine :=
  let e := { e with mediaInfo := some info }
  let e := { e with
    scheduler := e.scheduler.setDuration (info.durationMs * 1000) }
  let e : PlaybackEngine :=
    match info.video with
    | some v =>
        { e with
          compositor := e.compositor.map
            (fun c => c.setVideoDimensions v.codedWidth v.codedHeight) }
    | none => e
  if e.state = .loading ∨ e.state = .idle then e.setState .ready else e

/-- The decoder `frameDecoded` subscription (`playback-engine.ts` lines
74-84): only in `ready`/`paused`, render the best-available frame for the
current scheduler time so a freshly loaded or paused video shows content. -/
def PlaybackEngine.onFrameDecoded (e : PlaybackEngine) : PlaybackEngine :=
  if ¬(e.state = .ready ∨ e.state = .paused) then e
  else
    let timeUs := e.scheduler.currentTimeUs
    match getFrameAtTime e.decoder.decodedFrames timeUs with
    | some frame =>
        if some frame ≠ e.lastRenderedFrame then
          { e with
            compositor := e.compositor.map (fun c => c.drawFrame frame),
            lastRenderedFrame := some frame }
        else e
    | none => e

/-- Dispatch one decoder emission through the engine's subscriptions
(`setupEventHandlers`); decoder `stateChange` is deliberately not
mirrored (comment at `playback-engine.ts` lines 46-49). -/
def PlaybackEngine.dispatchDecoderEvent (e : PlaybackEngine) :
    MgrEvent → PlaybackEngine
  | .stateChange _ => e
  | .frameDecoded _ => e.onFrameDecoded
  | .infoReady info => e.onInfoReady info
  | .errorEvt msg => e.onDecoderError msg

/-- Dispatch a list of decoder emissions in order. -/
def PlaybackEngine.dispatchDecoderEvents (e : PlaybackEngine)
    (events : List MgrEvent) : PlaybackEngine :=
  events.foldl PlaybackEngine.dispatchDecoderEvent e

/-- `PlaybackEngine.onPlaybackTick` (`playback-engine.ts` lines 103-123):
emit `timeUpdate` to the host, draw the frame closest to the current time if
it changed, and evict frames older than the 100 ms look-behind window. -/
def PlaybackEngine.onPlaybackTick (e : PlaybackEngine) (currentTimeUs : ℚ) :
    PlaybackEngine :=
  match getFrameAtTime e.decoder.decodedFrames currentTimeUs with
  | some frame =>
      if some frame ≠ e.lastRenderedFrame then
        -- releaseFrame closes the previously rendered frame's resource
        let e : PlaybackEngine := { e with
          compositor := e.compositor.map (fun c => c.drawFrame frame),
          lastRenderedFrame := some frame }
        let r := e.decoder.consumeFramesUpTo (currentTimeUs - 100000)
        let e := { e with decoder := r.1 }
        e.dispatchDecoderEvents r.2.1
      else e
  | none => e

/-- `PlaybackEngine.onSeek` (`playback-engine.ts` lines 125-134): run the
decoder seek, then render the frame at the new position if one is buffered.
The decoder emissions during the seek are `stateChange`s (not mirrored) and
`frameDecoded`s from the decoder flush; the engine is in `seeking`
throughout this handler (set by `PlaybackEngine.seek` before the scheduler
`seek` event fires), so the `frameDecoded` handler's `ready`/`paused` guard
makes those dispatches no-ops regardless of ordering. -/
def PlaybackEngine.onSeek (e : PlaybackEngine) (timeUs : ℚ) : PlaybackEngine :=
  let r := e.decoder.seek (timeUs / 1000)
  let e := { e with decoder := r.1 }
  let e := e.dispatchDecoderEvents r.2
  match getFrameAtTime e.decoder.decodedFrames timeUs with
  | some frame =>
      { e with
        compositor := e.compositor.map (fun c => c.drawFrame frame),
        lastRenderedFrame := some frame }
  | none => e

/-- Dispatch one scheduler emission; the engine subscribes only to `tick`
and `seek` (`playback-engine.ts` lines 87-93). -/
def PlaybackEngine.dispatchSchedEvent (e : PlaybackEngine) :
    SchedEvent → PlaybackEngine
  | .tick currentTimeUs _ => e.onPlaybackTick currentTimeUs
  | .seek timeUs => e.onSeek timeUs
  | .play => e
  | .pause => e

/-- Dispatch a list of scheduler emissions in order. -/
def PlaybackEngine.dispatchSchedEvents (e : PlaybackEngine)
    (events : List SchedEvent) : PlaybackEngine :=
  events.foldl PlaybackEngine.dispatchSchedEvent e

/-- `PlaybackEngine.attachCanvas` (`playback-engine.ts` lines 139-149):
dispose any prior compositor, create a fresh one, and seed its video
dimensions from already-loaded media info. -/
def PlaybackEngine.attachCanvas (e : PlaybackEngine) : PlaybackEngine :=
  let c := CanvasCompositor.new
  let c :=
    match e.mediaInfo with
    | some info =>
        match info.video with
        | some v => c.setVideoDimensions v.codedWidth v.codedHeight
        | none => c
    | none => c
  { e with compositor := some c }

/-- The synchronous part of `PlaybackEngine.load` (`playback-engine.ts`
lines 161-171): force `loading`, then start the decoder load.  The `.then`
safety-net continuation runs when the load promise resolves (see
`PlaybackEngine.onDemuxReady`). -/
def PlaybackEngine.load (e : PlaybackEngine) (url : String) : PlaybackEngine :=
  let e := e.setState .loading
  let r := e.decoder.load url
  let e := { e with decoder := r.1 }
  e.dispatchDecoderEvents r.2

/-- `PlaybackEngine.play` (`playback-engine.ts` lines 176-181): only from
`ready` or `paused`. -/
def PlaybackEngine.play (e : PlaybackEngine) : PlaybackEngine :=
  if e.state = .ready ∨ e.state = .paused then
    let e := e.setState .playing
    let r := e.scheduler.play
    let e := { e with scheduler := r.1 }
    e.dispatchSchedEvents r.2
  else e

/-- `PlaybackEngine.pause` (`playback-engine.ts` lines 186-191): only from
`playing`. -/
def PlaybackEngine.pause (e : PlaybackEngine) : PlaybackEngine :=
  if e.state = .playing then
    let e := e.setState .paused
    let r := e.scheduler.pause
    let e := { e with scheduler := r.1 }
    e.dispatchSchedEvents r.2
  else e

/-- `PlaybackEngine.togglePlayback` (`playback-engine.ts` lines 196-202). -/
def PlaybackEngine.togglePlayback (e : PlaybackEngine) : PlaybackEngine :=
  if e.state = .playing then e.pause else e.play

/-- `PlaybackEngine.seek` (`playback-engine.ts` lines 207-224): pause the
scheduler if playing, enter `seeking`, perform the synchronous scheduler
seek (whose `seek` event drives `onSeek`), then settle immediately into
`playing`/`paused` according to the pre-seek state. -/
def PlaybackEngine.seek (e : PlaybackEngine) (timeMs : ℚ) : PlaybackEngine :=
  let wasPlaying := e.state = .playing
  let e :=
    if wasPlaying then
      let r := e.scheduler.pause
      let e := { e with scheduler := r.1 }
      e.dispatchSchedEvents r.2
    else e
  let e := e.setState .seeking
  let r := e.scheduler.seekMs timeMs
  let e := { e with scheduler := r.1 }
  let e := e.dispatchSchedEvents r.2
  if wasPlaying then
    let r2 := e.scheduler.play
    let e := { e with scheduler := r2.1 }
    let e := e.dispatchSchedEvents r2.2
    e.setState .playing
  else e.setState .paused

/-- `PlaybackEngine.skipForward` (`playback-engine.ts` lines 229-232); the
default amount is 5000 ms. -/
def PlaybackEngine.skipForward (e : PlaybackEngine) (amountMs : ℚ) :
    PlaybackEngine :=
  e.seek (e.scheduler.getCurrentTimeMs + amountMs)

/-- `PlaybackEngine.skipBackward` (`playback-engine.ts` lines 237-240); the
default amount is 5000 ms. -/
def PlaybackEngine.skipBackward (e : PlaybackEngine) (amountMs : ℚ) :
    PlaybackEngine :=
  e.seek (max 0 (e.scheduler.getCurrentTimeMs - amountMs))

/-- `PlaybackEngine.goToStart` (`playback-engine.ts` lines 245-247). -/
def PlaybackEngine.goToStart (e : PlaybackEngine) : PlaybackEngine :=
  e.seek 0

/-- `PlaybackEngine.goToEnd` (`playback-engine.ts` lines 252-256): a no-op
without media info. -/
def PlaybackEngine.goToEnd (e : PlaybackEngine) : PlaybackEngine :=
  match e.mediaInfo with
  | some info => e.seek info.durationMs
  | none => e

/-- `PlaybackEngine.setPlaybackRate` (`playback-engine.ts` lines 261-263). -/
def PlaybackEngine.setPlaybackRate (e : PlaybackEngine) (rate : ℚ) :
    PlaybackEngine :=
  { e with scheduler := e.scheduler.setPlaybackRate rate }

/-- `PlaybackEngine.setLoop` (`playback-engine.ts` lines 268-271). -/
def PlaybackEngine.setLoop (e : PlaybackEngine) (loop : Bool) :
    PlaybackEngine :=
  { e with
    scheduler := e.scheduler.setLoop loop,
    config := { e.config with loop := loop } }

/-- `PlaybackEngine.getCurrentTimeMs` (`playback-engine.ts` lines
297-299). -/
def PlaybackEngine.getCurrentTimeMs (e : PlaybackEngine) : ℚ :=
  e.scheduler.getCurrentTimeMs

/-- `PlaybackEngine.exportFrame` (`playback-engine.ts` lines 332-334):
`this.compositor?.exportFrame(format, quality) ?? null`. -/
def PlaybackEngine.exportFrame (e : PlaybackEngine) (format : String)
    (quality : ℚ) : Option String :=
  e.compositor.map (fun c => c.exportFrame format quality)

/-- An animation-frame callback delivered by the host: it fires only while a
request is pending, consumes the request, runs `FrameScheduler.onFrame` and
dispatches its emissions (`tick` → `onPlaybackTick`; the scheduler's
self-`pause` at end of media has no engine subscription). -/
def PlaybackEngine.animationFrame (e : PlaybackEngine) (timestamp : ℚ) :
    PlaybackEngine :=
  if e.scheduler.rafPending then
    let sched := { e.scheduler with rafPending := false }
    let r := sched.onFrame timestamp
    let e := { e with scheduler := r.1 }
    e.dispatchSchedEvents r.2
  else e

/-- The fetch-rejection continuation reaching the decoder's `catch`, with
its emissions dispatched to the engine. -/
def PlaybackEngine.onFetchRejected (e : PlaybackEngine) (err : FetchError) :
    PlaybackEngine :=
  let r := e.decoder.fetchRejected err
  let e := { e with decoder := r.1 }
  e.dispatchDecoderEvents r.2

/-- The fetch-timeout continuation (15-second timer fires). -/
def PlaybackEngine.onFetchTimeout (e : PlaybackEngine) : PlaybackEngine :=
  let r := e.decoder.onFetchTimeout
  let e := { e with decoder := r.1 }
  e.dispatchDecoderEvents r.2

/-- The fetch-success continuation. -/
def PlaybackEngine.onFetchResolved (e : PlaybackEngine) (byteLength : ℕ) :
    PlaybackEngine :=
  let r := e.decoder.fetchResolved byteLength
  let e := { e with decoder := r.1 }
  e.dispatchDecoderEvents r.2

/-- Whether a load promise is in the resolved state. -/
def LoadPromise.isResolved : Option LoadPromise → Bool
  | some (.resolved _) => true
  | _ => false

/-- mp4box reaching `onReady`: run the decoder-manager side, dispatch its
emissions, then run the `load(url).then` safety-net continuation
(`playback-engine.ts` lines 163-170) if this pass resolved the pending load
promise (`onInfo` is the only resolver and it stores the same `info` it
resolves with, so the continuation's argument is `mediaInfo`). -/
def PlaybackEngine.onDemuxReady (e : PlaybackEngine) (m : Movie) :
    PlaybackEngine :=
  let wasPending := e.decoder.loadPromise = some .pending
  let r := e.decoder.demuxOnReady m
  let e2 := ({ e with decoder := r.1 }).dispatchDecoderEvents r.2
  match r.1.mediaInfo with
  | some info =>
      if wasPending ∧ LoadPromise.isResolved r.1.loadPromise then
        let e3 := { e2 with mediaInfo := some info }
        if e3.state = .loading ∨ e3.state = .idle then e3.setState .ready
        else e3
      else e2
  | none => e2

/-- The demuxer `onSamples` continuation routed to the video track
(`demuxer.ts` lines 226-245 and `types.ts` lines 141-144). -/
def PlaybackEngine.onVideoSamples (e : PlaybackEngine)
    (samples : List DemuxedSample) : PlaybackEngine :=
  let r := e.decoder.onVideoSamples samples
  let e := { e with decoder := r.1 }
  e.dispatchDecoderEvents r.2

/-- A decoder output callback firing, dispatched to the engine. -/
def PlaybackEngine.onDecoderOutput (e : PlaybackEngine) : PlaybackEngine :=
  let r := e.decoder.decoderOutput
  let e := { e with decoder := r.1 }
  e.dispatchDecoderEvents r.2

/-- The engine-level trace alphabet: public operations plus the
asynchronous continuations (animation frames, fetch settlement, demux
parses, decoder outputs). -/
inductive EngineOp where
  | play
  | pause
  | togglePlayback
  | seek (timeMs : ℚ)
  | skipForward (amountMs : ℚ)
  | skipBackward (amountMs : ℚ)
  | goToStart
  | goToEnd
  | setPlaybackRate (rate : ℚ)
  | setLoop (loop : Bool)
  | load (url : String)
  | attachCanvas
  | animationFrame (timestamp : ℚ)
  | fetchResolved (byteLength : ℕ)
  | fetchRejected (err : FetchError)
  | fetchTimeout
  | demuxReady (movie : Movie)
  | videoSamples (samples : List DemuxedSample)
  | decoderOutput
  deriving DecidableEq, Repr

/-- Apply one engine-level event. -/
def engineStep (e : PlaybackEngine) : EngineOp → PlaybackEngine
  | .play => e.play
  | .pause => e.pause
  | .togglePlayback => e.togglePlayback
  | .seek timeMs => e.seek timeMs
  | .skipForward amountMs => e.skipForward amountMs
  | .skipBackward amountMs => e.skipBackward amountMs
  | .goToStart => e.goToStart
  | .goToEnd => e.goToEnd
  | .setPlaybackRate rate => e.setPlaybackRate rate
  | .setLoop loop => e.setLoop loop
  | .load url => e.load url
  | .attachCanvas => e.attachCanvas
  | .animationFrame timestamp => e.animationFrame timestamp
  | .fetchResolved byteLength => e.onFetchResolved byteLength
  | .fetchRejected err => e.onFetchRejected err
  | .fetchTimeout => e.onFetchTimeout
  | .demuxReady movie => e.onDemuxReady movie
  | .videoSamples samples => e.onVideoSamples samples
  | .decoderOutput => e.onDecoderOutput

/-- Run an engine trace from a freshly constructed engine with the default
configuration. -/
def runEngine (events : List EngineOp) : PlaybackEngine :=
  events.foldl engineStep (PlaybackEngine.new DEFAULT_CONFIG)

/-!
## Concrete scenarios

Reachable states used by the counterexamples and witnesses below, built by
running the embedded transition functions on explicit traces.
-/

/-- An HEVC-coded video track (codec id not starting with `avc1`, so no
decoder-description requirement applies). -/
def hvc1Track : MovieTrack :=
  { id := 1, codec := "hvc1.1.6.L93.B0",
    video := some { width := 1920, height := 1080 }, audio := none,
    duration := 10, nb_samples := 300, bitrate := 1000000, stsd := none }

/-- A 10-second movie (duration 10 at timescale 1) with one HEVC video
track. -/
def hvc1Movie : Movie :=
  { duration := 10, timescale := 1, videoTracks := [hvc1Track],
    audioTracks := [] }

/-- A 10-second movie with no tracks at all (only the container duration
matters to the scheduler scenarios). -/
def basicMovie : Movie :=
  { duration := 10, timescale := 1, videoTracks := [], audioTracks := [] }

/-- A batch of `n` identical demuxed samples. -/
def sampleBatch (n : ℕ) : List DemuxedSample :=
  List.replicate n
    { data := [0], timestampUs := 0, durationUs := 33333, isKeyframe := true }

/-- A manager that has loaded the HEVC movie: decoder configured, state
`ready`, empty buffers. -/
def readyManager : VideoDecoderManager :=
  ((((VideoDecoderManager.new 30).load
      "https://example.com/video.mp4").1.fetchResolved
      1000).1.demuxOnReady hvc1Movie).1

/-- The manager after 31 samples arrive in one demuxer callback and the 31
resulting decoder outputs are delivered. -/
def overfullManager : VideoDecoderManager :=
  runManager readyManager
    (ManagerEvent.videoSamples (sampleBatch 31)
      :: List.replicate 31 ManagerEvent.decoderOutput)

/-- A manager with a full two-frame buffer and a queued sample. -/
def fullBufferManager : VideoDecoderManager :=
  { VideoDecoderManager.new 2 with
    decoderConfigured := true,
    decodedFrames :=
      [{ timestampUs := 0, durationUs := 33333 },
        { timestampUs := 33333, durationUs := 33333 }],
    pendingSamples := sampleBatch 1 }

/-- A manager in the middle of a `load` (fetch still in flight). -/
def loadingManager : VideoDecoderManager :=
  ((VideoDecoderManager.new 30).load "https://example.com/video.mp4").1

/-- An engine whose load failed with a 404: the decoder error event put the
engine into the `error` state. -/
def errorEngine : PlaybackEngine :=
  runEngine
    [.load "https://example.com/video.mp4",
      .fetchRejected (FetchError.httpNotOk 404)]

/-- An engine that finished loading the track-less 10-second movie: state
`ready`, scheduler duration 10,000,000 µs. -/
def loadedEngine : PlaybackEngine :=
  runEngine
    [.load "https://example.com/video.mp4", .fetchResolved 1000,
      .demuxReady basicMovie]

/-- `loadedEngine` after `play()` and a first animation frame at
timestamp 0: playing, virtual clock at 0, a frame request pending. -/
def playingEngine : PlaybackEngine :=
  (loadedEngine.play).animationFrame 0

/-- `playingEngine` after an animation frame 10,500 ms later, which advances
the virtual clock past the 10,000,000 µs duration. -/
def endedEngine : PlaybackEngine :=
  playingEngine.animationFrame 10500

/-- An `avcC` box whose SPS list is empty, so `serializeAvcC` cannot
produce a configuration record. -/
def badAvcCBox : AvcCBox :=
  { configurationVersion := 1, AVCProfileIndication := 66,
    profile_compatibility := 192, AVCLevelIndication := 30,
    lengthSizeMinusOne := 3, SPS := [],
    PPS := [JsBinary.u8 [104, 238, 60, 128]], ext := JsBinary.nullish }

/-- An `avc1`-coded track whose `avcC` cannot be serialized and carries no
raw data fallback. -/
def badAvc1Track : MovieTrack :=
  { id := 1, codec := "avc1.42c01e",
    video := some { width := 1280, height := 720 }, audio := none,
    duration := 10, nb_samples := 300, bitrate := 800000,
    stsd := some
      { entries :=
          [{
            avcC := some { record := badAvcCBox, data := none },
            hvcC := none, vpcC := none, av1C := none, esds := none }] } }

/-- A movie whose only video track is `badAvc1Track`. -/
def badMovie : Movie :=
  { duration := 10, timescale := 1, videoTracks := [badAvc1Track],
    audioTracks := [] }

/-- An engine mid-`load`, waiting on the demuxer. -/
def loadingEngine : PlaybackEngine :=
  runEngine [.load "https://example.com/video.mp4", .fetchResolved 1000]

/-- Two frames whose end times are out of order: the first ends at 200 µs,
the second at 120 µs. -/
def frameA : DecodedFrame := { timestampUs := 0, durationUs := 200 }

/-- See `frameA`. -/
def frameB : DecodedFrame := { timestampUs := 100, durationUs := 20 }

/-- Three frames with nondecreasing end times. -/
def sortedFrames : List DecodedFrame :=
  [{ timestampUs := 0, durationUs := 100 },
    { timestampUs := 100, durationUs := 100 },
    { timestampUs := 200, durationUs := 100 }]

/-- The eviction predicate of `consumeFramesUpTo`: the frame's end time
`timestampUs + durationUs` is at or before `timeUs`. -/
def frameEndsBy (timeUs : ℚ) (frame : DecodedFrame) : Bool :=
  frame.timestampUs + frame.durationUs ≤ timeUs

/-!
## Claim C5 — `consumeFramesUpTo`

The method's loop stops at the first buffered frame whose end time is after
`timeUs`: it evicts the maximal *prefix* of frames ended by `timeUs`, not
every such frame in the buffer.
-/

/-- C5 counterexample input: `frameA` (ends at 200 µs) ahead of `frameB`
(ends at 120 µs) in the buffer. -/
def outOfOrderFrames : List DecodedFrame := [frameA, frameB]

theorem consumeFramesUpTo_nil (t : ℚ) : consumeFramesUpTo [] t = ([], []) :=
  rfl

theorem consumeFramesUpTo_cons (f : DecodedFrame) (rest : List DecodedFrame)
    (t : ℚ) :
    consumeFramesUpTo (f :: rest) t =
      if f.timestampUs + f.durationUs ≤ t then
        ((f :: (consumeFramesUpTo rest t).1), (consumeFramesUpTo rest t).2)
      else ([], f :: rest) := by
  by_cases h : f.timestampUs + f.durationUs ≤ t <;>
    simp [consumeFramesUpTo, h]

/-- C5 (corrected): `consumeFramesUpTo` evicts and returns exactly the
maximal prefix of the buffer consisting of frames whose end time is at or
before `timeUs`, leaving the rest; when the buffer's end times are
nondecreasing (the situation the engine maintains for equal-duration
presentation-ordered frames) this coincides with evicting exactly the
frames ended by `timeUs`. -/
theorem consumeFramesUpTo_spec (fs : List DecodedFrame) (t : ℚ) :
    (consumeFramesUpTo fs t).1 = fs.takeWhile (frameEndsBy t) ∧
    (consumeFramesUpTo fs t).2 = fs.dropWhile (frameEndsBy t) ∧
    ((fs.Pairwise fun a b =>
        a.timestampUs + a.durationUs ≤ b.timestampUs + b.durationUs) →
      (consumeFramesUpTo fs t).1 = fs.filter (frameEndsBy t) ∧
      (consumeFramesUpTo fs t).2 = fs.filter (fun f => !frameEndsBy t f)) := by
  induction fs with
  | nil => simp [consumeFramesUpTo]
  | cons f rest ih =>
      obtain ⟨ih1, ih2, ih3⟩ := ih
      by_cases h : f.timestampUs + f.durationUs ≤ t
      · have hb : frameEndsBy t f = true := by
          simp [frameEndsBy, h]
        refine ⟨?_, ?_, ?_⟩
        · simp [consumeFramesUpTo_cons, h, List.takeWhile_cons, hb, ih1]
        · simp [consumeFramesUpTo_cons, h, List.dropWhile_cons, hb, ih2]
        · intro hp
          rw [List.pairwise_cons] at hp
          obtain ⟨hf1, hf2⟩ := ih3 hp.2
          constructor
          · simp [consumeFramesUpTo_cons, h, List.filter_cons, hb, hf1]
          · simp [consumeFramesUpTo_cons, h, List.filter_cons, hb, hf2]
      · have hb : frameEndsBy t f = false := by
          simp [frameEndsBy, h]
        refine ⟨?_, ?_, ?_⟩
        · simp [consumeFramesUpTo_cons, h, List.takeWhile_cons, hb]
        · simp [consumeFramesUpTo_cons, h, List.dropWhile_cons, hb]
        · intro hp
          rw [List.pairwise_cons] at hp
          have hrest : ∀ g ∈ rest, frameEndsBy t g = false := by
            intro g hg
            have := hp.1 g hg
            simp only [frameEndsBy, decide_eq_false_iff_not]
            intro hle
            exact h (le_trans this hle)
          constructor
          · rw [consumeFramesUpTo_cons]
            simp only [h, if_false, List.filter_cons, hb]
            rw [List.filter_eq_nil_iff.mpr ?_]
            · simp
            · intro g hg
              simp [hrest g hg]
          · rw [consumeFramesUpTo_cons]
            simp only [h, if_false, List.filter_cons, hb]
            rw [List.filter_eq_self.mpr ?_]
            · simp
            · intro g hg
              simp [hrest g hg]

/-- C5 witness: on a buffer with nondecreasing end times the eviction
matches the filter characterization. -/
theorem consumeFramesUpTo_spec_witness :
    (sortedFrames.Pairwise fun a b =>
        a.timestampUs + a.durationUs ≤ b.timestampUs + b.durationUs) ∧
    (consumeFramesUpTo sortedFrames 250).1 =
      sortedFrames.filter (frameEndsBy 250) ∧
    (consumeFramesUpTo sortedFrames 250).2 =
      sortedFrames.filter (fun f => !frameEndsBy 250 f) :=
  ⟨by with_unfolding_all decide,
    (consumeFramesUpTo_spec sortedFrames 250).2.2 (by with_unfolding_all decide)⟩

/-- C5 counterexample: with `timeUs = 150`, `frameB` ends at 120 ≤ 150 yet
the method removes nothing and `frameB` stays in the buffer, refuting
"removes and returns exactly those buffered frames whose end time is at or
before t" for arbitrary buffer states. -/
theorem consumeFramesUpTo_counterexample :
    frameB.timestampUs + frameB.durationUs ≤ 150 ∧
    (consumeFramesUpTo outOfOrderFrames 150).1 = [] ∧
    frameB ∈ (consumeFramesUpTo outOfOrderFrames 150).2 := by
  with_unfolding_all decide

/-!
## Claim C7 — `getFrameAtTime`
-/

theorem getFrameAtTime_foldl_aux (timeUs : ℚ) (l : List DecodedFrame)
    (f : DecodedFrame) (d : ℚ) (hd : d = |f.timestampUs - timeUs|) :
    ∃ g e, l.foldl (getFrameStep timeUs) (some (f, d)) = some (g, e) ∧
      e = |g.timestampUs - timeUs| ∧ (g = f ∨ g ∈ l) ∧ e ≤ d ∧
      ∀ x ∈ l, e ≤ |x.timestampUs - timeUs| := by
  induction l generalizing f d with
  | nil =>
      exact ⟨f, d, rfl, hd, Or.inl rfl, le_refl d, by simp⟩
  | cons x rest ih =>
      rw [List.foldl_cons]
      by_cases hlt : |x.timestampUs - timeUs| < d
      · have hstep : getFrameStep timeUs (some (f, d)) x =
            some (x, |x.timestampUs - timeUs|) := by
          simp [getFrameStep, hlt]
        rw [hstep]
        obtain ⟨g, e, heq, he, hmem, hle, hall⟩ := ih x _ rfl
        refine ⟨g, e, heq, he, ?_, le_trans hle (le_of_lt hlt), ?_⟩
        · rcases hmem with h | h
          · exact Or.inr (h ▸ List.mem_cons_self x rest)
          · exact Or.inr (List.mem_cons_of_mem x h)
        · intro y hy
          rcases List.mem_cons.mp hy with h | h
          · exact h ▸ hle
          · exact hall y h
      · have hstep : getFrameStep timeUs (some (f, d)) x = some (f, d) := by
          simp [getFrameStep, hlt]
        rw [hstep]
        obtain ⟨g, e, heq, he, hmem, hle, hall⟩ := ih f d hd
        refine ⟨g, e, heq, he, ?_, hle, ?_⟩
        · rcases hmem with h | h
          · exact Or.inl h
          · exact Or.inr (List.mem_cons_of_mem x h)
        · intro y hy
          rcases List.mem_cons.mp hy with h | h
          · exact h ▸ le_trans hle (not_lt.mp hlt)
          · exact hall y h

/-- C7 (confirmed): `getFrameAtTime` returns `null` exactly when the buffer
is empty, and otherwise returns a buffered frame whose absolute timestamp
delta to `timeUs` is minimal over the whole buffer. -/
theorem getFrameAtTime_spec (frames : List DecodedFrame) (timeUs : ℚ) :
    (getFrameAtTime frames timeUs = none ↔ frames = []) ∧
    (∀ f, getFrameAtTime frames timeUs = some f →
      f ∈ frames ∧
        ∀ g ∈ frames,
          |f.timestampUs - timeUs| ≤ |g.timestampUs - timeUs|) := by
  cases frames with
  | nil => simp [getFrameAtTime]
  | cons x rest =>
      have hstep : getFrameStep timeUs none x =
          some (x, |x.timestampUs - timeUs|) := by
        simp [getFrameStep]
      obtain ⟨g, e, heq, he, hmem, hle, hall⟩ :=
        getFrameAtTime_foldl_aux timeUs rest x |x.timestampUs - timeUs| rfl
      have hval : getFrameAtTime (x :: rest) timeUs = some g := by
        rw [getFrameAtTime, List.foldl_cons, hstep, heq]
        rfl
      constructor
      · rw [hval]
        simp
      · intro f hf
        rw [hval] at hf
        cases hf
        constructor
        · rcases hmem with h | h
          · exact h ▸ List.mem_cons_self x rest
          · exact List.mem_cons_of_mem x h
        · intro y hy
          rw [← he]
          rcases List.mem_cons.mp hy with h | h
          · exact h ▸ hle
          · exact hall y h

/-- C7 witness: on a concrete two-frame buffer at `timeUs = 90`, the
returned frame is buffered and minimizes the timestamp delta. -/
theorem getFrameAtTime_spec_witness :
    getFrameAtTime outOfOrderFrames 90 = some frameB ∧
    frameB ∈ outOfOrderFrames ∧
    ∀ g ∈ outOfOrderFrames,
      |frameB.timestampUs - 90| ≤ |g.timestampUs - (90:ℚ)| := by
  have hv : getFrameAtTime outOfOrderFrames 90 = some frameB := by
    with_unfolding_all decide
  have h := (getFrameAtTime_spec outOfOrderFrames 90).2 frameB hv
  exact ⟨hv, h.1, h.2⟩

/-!
## Claim C9 — `calculateDrawRect`
-/

theorem calculateDrawRect_contain_eq (config : CompositorConfig)
    (sw sh tw th : ℚ) (hm : config.maintainAspectRatio = true)
    (hc : config.scalingMode = .contain) :
    calculateDrawRect config sw sh tw th =
      if tw / th < sw / sh then
        { x := (tw - tw) / 2, y := (th - tw / (sw / sh)) / 2,
          width := tw, height := tw / (sw / sh) }
      else
        { x := (tw - th * (sw / sh)) / 2, y := (th - th) / 2,
          width := th * (sw / sh), height := th } := by
  rw [calculateDrawRect]
  rw [if_neg (by simp [hm, hc])]
  simp only [hc, if_pos]
  by_cases hlt : tw / th < sw / sh
  · rw [if_pos hlt, if_pos hlt]
  · rw [if_neg hlt, if_neg hlt]

theorem calculateDrawRect_full_eq (config : CompositorConfig)
    (sw sh tw th : ℚ)
    (h : config.maintainAspectRatio = false ∨ config.scalingMode = .fill) :
    calculateDrawRect config sw sh tw th =
      { x := 0, y := 0, width := tw, height := th } := by
  rw [calculateDrawRect, if_pos]
  rcases h with h | h
  · exact Or.inl (by simp [h])
  · exact Or.inr h

/-- C9 (confirmed): with `contain` scaling and aspect-ratio maintenance on,
the draw rectangle has the source's aspect ratio (`w * sh = h * sw`), has
positive extent, lies entirely inside the target area, and is centered in
it; with `fill` mode or aspect-ratio maintenance off, it is exactly the
full target area. -/
theorem calculateDrawRect_spec (config : CompositorConfig) (sw sh tw th : ℚ)
    (hsw : 0 < sw) (hsh : 0 < sh) (htw : 0 < tw) (hth : 0 < th) :
    (config.maintainAspectRatio = true → config.scalingMode = .contain →
      (calculateDrawRect config sw sh tw th).width * sh =
          (calculateDrawRect config sw sh tw th).height * sw ∧
        0 < (calculateDrawRect config sw sh tw th).width ∧
        0 < (calculateDrawRect config sw sh tw th).height ∧
        0 ≤ (calculateDrawRect config sw sh tw th).x ∧
        0 ≤ (calculateDrawRect config sw sh tw th).y ∧
        (calculateDrawRect config sw sh tw th).x +
            (calculateDrawRect config sw sh tw th).width ≤ tw ∧
        (calculateDrawRect config sw sh tw th).y +
            (calculateDrawRect config sw sh tw th).height ≤ th ∧
        2 * (calculateDrawRect config sw sh tw th).x +
            (calculateDrawRect config sw sh tw th).width = tw ∧
        2 * (calculateDrawRect config sw sh tw th).y +
            (calculateDrawRect config sw sh tw th).height = th) ∧
    ((config.maintainAspectRatio = false ∨ config.scalingMode = .fill) →
      calculateDrawRect config sw sh tw th =
        { x := 0, y := 0, width := tw, height := th }) := by
  have hsa : 0 < sw / sh := div_pos hsw hsh
  constructor
  · intro hm hc
    rw [calculateDrawRect_contain_eq config sw sh tw th hm hc]
    by_cases hlt : tw / th < sw / sh
    · rw [if_pos hlt]
      have hkey : tw / (sw / sh) ≤ th := by
        rw [div_le_iff₀ hsa]
        have h1 : tw < sw / sh * th := (div_lt_iff₀ hth).mp hlt
        nlinarith
      have hhpos : 0 < tw / (sw / sh) := div_pos htw hsa
      refine ⟨?_, htw, hhpos, ?_, ?_, ?_, ?_, ?_, ?_⟩
      · field_simp
      · simp
      · simp only
        linarith
      · simp only
        linarith
      · simp only
        linarith
      · simp only
        ring
      · simp only
        ring
    · rw [if_neg hlt]
      have hge : sw / sh ≤ tw / th := not_lt.mp hlt
      have hkey : th * (sw / sh) ≤ tw := by
        have h1 : sw / sh * th ≤ tw := (le_div_iff₀ hth).mp hge
        nlinarith
      have hwpos : 0 < th * (sw / sh) := mul_pos hth hsa
      refine ⟨?_, hwpos, hth, ?_, ?_, ?_, ?_, ?_, ?_⟩
      · field_simp
      · simp only
        linarith
      · simp
      · simp only
        linarith
      · simp only
        linarith
      · simp only
        ring
      · simp only
        ring
  · exact calculateDrawRect_full_eq config sw sh tw th

/-- C9 witness: the default compositor config (`contain`, aspect kept) on a
4:3 source in a 16:9 target. -/
theorem calculateDrawRect_spec_witness :
    (calculateDrawRect compositorDefaultConfig 4 3 16 9).width * 3 =
        (calculateDrawRect compositorDefaultConfig 4 3 16 9).height * 4 ∧
      0 < (calculateDrawRect compositorDefaultConfig 4 3 16 9).width ∧
      0 < (calculateDrawRect compositorDefaultConfig 4 3 16 9).height ∧
      0 ≤ (calculateDrawRect compositorDefaultConfig 4 3 16 9).x ∧
      0 ≤ (calculateDrawRect compositorDefaultConfig 4 3 16 9).y ∧
      (calculateDrawRect compositorDefaultConfig 4 3 16 9).x +
          (calculateDrawRect compositorDefaultConfig 4 3 16 9).width ≤ 16 ∧
      (calculateDrawRect compositorDefaultConfig 4 3 16 9).y +
          (calculateDrawRect compositorDefaultConfig 4 3 16 9).height ≤ 9 ∧
      2 * (calculateDrawRect compositorDefaultConfig 4 3 16 9).x +
          (calculateDrawRect compositorDefaultConfig 4 3 16 9).width = 16 ∧
      2 * (calculateDrawRect compositorDefaultConfig 4 3 16 9).y +
          (calculateDrawRect compositorDefaultConfig 4 3 16 9).height = 9 :=
  (calculateDrawRect_spec compositorDefaultConfig 4 3 16 9
    (by norm_num) (by norm_num) (by norm_num) (by norm_num)).1 rfl rfl

/-!
## Claim C1 — decoded-frame buffer bound

`handleDecodedFrame` pushes every decoder output unconditionally; only
*submission* is gated by the bound.  Because the synchronous `processQueue`
loop cannot observe asynchronous outputs, a single `onVideoSamples` batch
submits every queued sample while the buffer is below the maximum, and the
outputs of those in-flight decodes then overfill the buffer.
-/

set_option maxRecDepth 100000 in
/-- C1 counterexample: from a freshly loaded manager with the default bound
of 30, one arrival of 31 samples followed by the 31 decoder output
callbacks leaves 31 frames in the buffer — the buffer length exceeds the
configured maximum. -/
theorem bufferBound_counterexample :
    overfullManager.maxBufferedFrames = 30 ∧
    30 < overfullManager.decodedFrames.length := by
  with_unfolding_all decide

/-- C1 (corrected): decode *submission* pauses once the buffer is full —
whenever the buffer holds at least `maxBufferedFrames` frames,
`processQueue` submits nothing and changes nothing (submission resumes only
once consumption brings the length back under the bound); the buffer itself
can still exceed the bound by outputs of decodes already in flight. -/
theorem processQueue_paused_when_full (s : VideoDecoderManager)
    (h : s.maxBufferedFrames ≤ s.decodedFrames.length) :
    s.processQueue = (s, []) := by
  rw [VideoDecoderManager.processQueue]
  by_cases h1 : s.isDecoding ∨ ¬s.decoderConfigured ∨ s.pendingSamples.isEmpty
  · rw [if_pos h1]
  · rw [if_neg h1, if_pos h]

/-- C1 witness: a configured manager with a full two-frame buffer and a
queued sample submits nothing. -/
theorem processQueue_paused_when_full_witness :
    fullBufferManager.maxBufferedFrames ≤
      fullBufferManager.decodedFrames.length ∧
    fullBufferManager.processQueue = (fullBufferManager, []) :=
  ⟨by with_unfolding_all decide,
    processQueue_paused_when_full fullBufferManager
      (by with_unfolding_all decide)⟩

/-!
## Claim C3 — load-time failures and the 15-second timeout

`failLoad` does reject the pending promise and enter `error` — but the
timeout path never reaches it: the timeout aborts the fetch, the fetch
rejects with an `AbortError`, and the `catch` in `load` filters exactly
that name out.
-/

/-- C3 (code bug): when the 15-second fetch timeout fires during a load,
the manager stays in `loading`, emits nothing, keeps the reject handle, and
the load promise stays pending forever — the caller awaiting `load(url)`
hangs, contrary to the documented error taxonomy. -/
theorem fetchTimeout_hangs :
    loadingManager.onFetchTimeout.1.state = .loading ∧
    loadingManager.onFetchTimeout.1.loadPromise = some .pending ∧
    loadingManager.onFetchTimeout.1.rejectHeld = true ∧
    loadingManager.onFetchTimeout.2 = [] := by
  with_unfolding_all decide

/-!
## Engine-level helper lemmas
-/

theorem mgrSetState_state (s : VideoDecoderManager) (ns : PlaybackState) :
    (s.setState ns).1.state = ns := by
  rw [VideoDecoderManager.setState]
  by_cases h : s.state = ns
  · rw [if_neg (not_not_intro h)]
    exact h
  · rw [if_pos h]

theorem mgrSetState_snd (s : VideoDecoderManager) (ns : PlaybackState)
    (ev : MgrEvent) (h : ev ∈ (s.setState ns).2) :
    ∃ st, ev = MgrEvent.stateChange st := by
  rw [VideoDecoderManager.setState] at h
  by_cases hc : s.state = ns
  · rw [if_neg (not_not_intro hc)] at h
    simp at h
  · rw [if_pos hc] at h
    simp at h
    exact ⟨ns, h⟩

theorem mgrReset_snd (s : VideoDecoderManager) (ev : MgrEvent)
    (h : ev ∈ s.reset.2) : ∃ st, ev = MgrEvent.stateChange st :=
  mgrSetState_snd _ _ ev h

theorem mgrLoad_snd (s : VideoDecoderManager) (url : String) (ev : MgrEvent)
    (h : ev ∈ (s.load url).2) : ∃ st, ev = MgrEvent.stateChange st := by
  rw [VideoDecoderManager.load] at h
  simp only [List.mem_append] at h
  rcases h with h | h
  · exact mgrReset_snd _ ev h
  · exact mgrSetState_snd _ _ ev h

theorem engSetState_state (e : PlaybackEngine) (ns : PlaybackState) :
    (e.setState ns).state = ns := by
  rw [PlaybackEngine.setState]
  by_cases h : e.state = ns
  · rw [if_neg (not_not_intro h)]
    exact h
  · rw [if_pos h]

theorem dispatch_stateChange_id (evs : List MgrEvent) (e : PlaybackEngine)
    (h : ∀ ev ∈ evs, ∃ st, ev = MgrEvent.stateChange st) :
    e.dispatchDecoderEvents evs = e := by
  induction evs generalizing e with
  | nil => rfl
  | cons ev rest ih =>
      obtain ⟨st, hst⟩ := h ev (List.mem_cons_self _ _)
      subst hst
      exact ih e (fun ev' h' => h ev' (List.mem_cons_of_mem _ h'))

/-!
## Claim C2 — the `error` state under public operations

`play`, `pause` and `togglePlayback` guard on the current state and are
no-ops in `error`, and `load` forces `loading` — but `seek` (and the
operations expressed through it) has no such guard: from `error` it passes
through `seeking` and settles in `paused`.
-/

theorem seek_state_of_not_playing (e : PlaybackEngine) (t : ℚ)
    (hw : ¬e.state = .playing) : (e.seek t).state = .paused := by
  rw [PlaybackEngine.seek]
  simp only [hw, if_false, ite_false, engSetState_state]

set_option maxRecDepth 100000 in
/-- C2 counterexample: an engine in the `error` state (after a 404 load
failure) leaves `error` when `seek` is invoked: the state afterwards is
`paused`, refuting "the state remains `error` under every public operation
except `load`". -/
theorem error_seek_counterexample :
    errorEngine.state = .error ∧ (errorEngine.seek 1000).state = .paused := by
  constructor
  · with_unfolding_all decide
  · exact seek_state_of_not_playing errorEngine 1000
      (by with_unfolding_all decide)

/-- C2 (corrected): while the engine is in `error`, `play`, `pause` and
`togglePlayback` leave the state at `error`, and `load` unconditionally
sets `loading` first; but `seek` — and `skipForward`, `skipBackward`,
`goToStart`, and `goToEnd` when media info is present, all of which call
`seek` — exits `error`, settling in `paused` (via the transient `seeking`);
`goToEnd` without media info is a no-op. -/
theorem error_state_transitions (e : PlaybackEngine) (t a : ℚ)
    (url : String) (h : e.state = .error) :
    e.play.state = .error ∧
    e.pause.state = .error ∧
    e.togglePlayback.state = .error ∧
    (e.load url).state = .loading ∧
    (e.seek t).state = .paused ∧
    (e.skipForward a).state = .paused ∧
    (e.skipBackward a).state = .paused ∧
    e.goToStart.state = .paused ∧
    (e.mediaInfo = none → e.goToEnd.state = .error) ∧
    (∀ info, e.mediaInfo = some info → e.goToEnd.state = .paused) := by
  have hnp : ¬e.state = .playing := by
    rw [h]
    simp
  have hplay : e.play = e := by
    rw [PlaybackEngine.play, if_neg]
    rw [h]
    simp
  have hpause : e.pause = e := by
    rw [PlaybackEngine.pause, if_neg hnp]
  have hseek : ∀ u : ℚ, (e.seek u).state = .paused := fun u =>
    seek_state_of_not_playing e u hnp
  have hload : (e.load url).state = .loading := by
    have hd : e.load url =
        { e.setState .loading with
          decoder := ((e.setState .loading).decoder.load url).1 } :=
      dispatch_stateChange_id _ _ (fun ev hev => mgrLoad_snd _ _ ev hev)
    rw [hd]
    exact engSetState_state e .loading
  refine ⟨?_, ?_, ?_, hload, hseek t, hseek _, hseek _, hseek 0, ?_, ?_⟩
  · rw [hplay]
    exact h
  · rw [hpause]
    exact h
  · rw [PlaybackEngine.togglePlayback, if_neg hnp, hplay]
    exact h
  · intro hmi
    rw [PlaybackEngine.goToEnd, hmi]
    exact h
  · intro info hmi
    rw [PlaybackEngine.goToEnd, hmi]
    exact hseek info.durationMs

set_option maxRecDepth 100000 in
/-- C2 witness: the amended transitions evaluated on the concrete `error`
engine (whose media info is still null, so `goToEnd` stays put). -/
theorem error_state_transitions_witness :
    errorEngine.play.state = .error ∧
    errorEngine.pause.state = .error ∧
    errorEngine.togglePlayback.state = .error ∧
    (errorEngine.load "https://example.com/other.mp4").state = .loading ∧
    (errorEngine.seek 5).state = .paused ∧
    (errorEngine.skipForward 7).state = .paused ∧
    (errorEngine.skipBackward 7).state = .paused ∧
    errorEngine.goToStart.state = .paused ∧
    errorEngine.goToEnd.state = .error := by
  have h := error_state_transitions errorEngine 5 7
    "https://example.com/other.mp4" (by with_unfolding_all decide)
  exact ⟨h.1, h.2.1, h.2.2.1, h.2.2.2.1, h.2.2.2.2.1, h.2.2.2.2.2.1,
    h.2.2.2.2.2.2.1, h.2.2.2.2.2.2.2.1,
    h.2.2.2.2.2.2.2.2.1 (by with_unfolding_all decide)⟩

/-!
## Claim C4 — end of media without loop

The scheduler clamps to the duration and stops without rescheduling — but
it pauses only *itself*: its `pause` event has no engine subscription
(`setupEventHandlers` registers only `tick` and `seek`), so the engine's
state stays `playing`.
-/

theorem onFrame_end_of_media (s : FrameScheduler) (ts : ℚ)
    (hplay : s.isPlaying = true) (hloop : s.loop = false)
    (hadv : s.durationUs ≤
      s.currentTimeUs + s.deltaMsOf ts * 1000 * s.playbackRate) :
    s.onFrame ts =
      ({ s with
          lastFrameTime := some ts, currentTimeUs := s.durationUs,
          isPlaying := false, rafPending := false },
        [SchedEvent.pause]) := by
  rw [FrameScheduler.onFrame]
  rw [if_neg (by simp [hplay])]
  show (if s.durationUs ≤
        s.currentTimeUs + s.deltaMsOf ts * 1000 * s.playbackRate then
      if s.loop then
        ({ s with
            lastFrameTime := some ts,
            currentTimeUs :=
              (s.currentTimeUs + s.deltaMsOf ts * 1000 * s.playbackRate) %
                s.durationUs,
            rafPending := true },
          [SchedEvent.tick
            ((s.currentTimeUs + s.deltaMsOf ts * 1000 * s.playbackRate) %
              s.durationUs)
            (s.deltaMsOf ts)])
      else
        (({ s with
            lastFrameTime := some ts,
            currentTimeUs := s.durationUs } : FrameScheduler).pause.1,
          ({ s with
            lastFrameTime := some ts,
            currentTimeUs := s.durationUs } : FrameScheduler).pause.2)
    else
      ({ s with
          lastFrameTime := some ts,
          currentTimeUs :=
            s.currentTimeUs + s.deltaMsOf ts * 1000 * s.playbackRate,
          rafPending := true },
        [SchedEvent.tick
          (s.currentTimeUs + s.deltaMsOf ts * 1000 * s.playbackRate)
          (s.deltaMsOf ts)])) = _
  rw [if_pos hadv]
  rw [if_neg (by simp [hloop])]
  rw [FrameScheduler.pause]
  rw [if_neg (by simp [hplay])]

theorem animationFrame_end_eq (e : PlaybackEngine) (ts : ℚ)
    (hplay : e.scheduler.isPlaying = true)
    (hraf : e.scheduler.rafPending = true)
    (hloop : e.scheduler.loop = false)
    (hadv : e.scheduler.durationUs ≤ e.scheduler.currentTimeUs +
      e.scheduler.deltaMsOf ts * 1000 * e.scheduler.playbackRate) :
    e.animationFrame ts =
      { e with scheduler :=
          { e.scheduler with
            rafPending := false, lastFrameTime := some ts,
            currentTimeUs := e.scheduler.durationUs, isPlaying := false } } := by
  have hr : ({ e.scheduler with rafPending := false } :
        FrameScheduler).onFrame ts =
      ({ e.scheduler with
          rafPending := false, lastFrameTime := some ts,
          currentTimeUs := e.scheduler.durationUs, isPlaying := false },
        [SchedEvent.pause]) :=
    onFrame_end_of_media { e.scheduler with rafPending := false } ts
      hplay hloop hadv
  rw [PlaybackEngine.animationFrame, if_pos hraf]
  show PlaybackEngine.dispatchSchedEvents
    { e with scheduler :=
        (({ e.scheduler with rafPending := false } :
          FrameScheduler).onFrame ts).1 }
    (({ e.scheduler with rafPending := false } :
      FrameScheduler).onFrame ts).2 = _
  rw [hr]
  rfl

set_option maxRecDepth 100000 in
/-- C4 counterexample: the playing engine whose animation frame advances
past the 10-second duration clamps the clock to exactly 10,000,000 µs and
stops the scheduler without rescheduling, but the engine state is still
`playing`, not `paused`. -/
theorem end_of_media_counterexample :
    endedEngine.scheduler.currentTimeUs = 10000000 ∧
    endedEngine.scheduler.isPlaying = false ∧
    endedEngine.scheduler.rafPending = false ∧
    endedEngine.state = .playing := by
  have heq := animationFrame_end_eq playingEngine 10500
    (by with_unfolding_all decide) (by with_unfolding_all decide)
    (by with_unfolding_all decide) (by with_unfolding_all decide)
  show (playingEngine.animationFrame 10500).scheduler.currentTimeUs =
      10000000 ∧
    (playingEngine.animationFrame 10500).scheduler.isPlaying = false ∧
    (playingEngine.animationFrame 10500).scheduler.rafPending = false ∧
    (playingEngine.animationFrame 10500).state = .playing
  rw [heq]
  refine ⟨?_, rfl, rfl, ?_⟩
  · show playingEngine.scheduler.durationUs = 10000000
    exact le_antisymm (by with_unfolding_all decide)
      (by with_unfolding_all decide)
  · show playingEngine.state = .playing
    with_unfolding_all decide

/-- C4 (corrected): when an animation-frame callback advances current time
to reach or exceed the duration with loop disabled, current time is clamped
to exactly the duration and the scheduler stops without scheduling a
further callback (and emits its own `pause` event); but the Playback
Engine's state does not change — it remains `playing`, since the engine
subscribes only to the scheduler's `tick` and `seek` events. -/
theorem animationFrame_end_of_media (e : PlaybackEngine) (ts : ℚ)
    (hstate : e.state = .playing)
    (hplay : e.scheduler.isPlaying = true)
    (hraf : e.scheduler.rafPending = true)
    (hloop : e.scheduler.loop = false)
    (hadv : e.scheduler.durationUs ≤ e.scheduler.currentTimeUs +
      e.scheduler.deltaMsOf ts * 1000 * e.scheduler.playbackRate) :
    (e.animationFrame ts).scheduler.currentTimeUs =
        e.scheduler.durationUs ∧
    (e.animationFrame ts).scheduler.isPlaying = false ∧
    (e.animationFrame ts).scheduler.rafPending = false ∧
    (e.animationFrame ts).state = .playing := by
  have heq := animationFrame_end_eq e ts hplay hraf hloop hadv
  refine ⟨?_, ?_, ?_, ?_⟩ <;> rw [heq]
  exact hstate

set_option maxRecDepth 100000 in
/-- C4 witness: the end-of-media transition evaluated on the concrete
playing engine at animation-frame timestamp 10,500. -/
theorem animationFrame_end_of_media_witness :
    (playingEngine.animationFrame 10500).scheduler.currentTimeUs =
        playingEngine.scheduler.durationUs ∧
    (playingEngine.animationFrame 10500).scheduler.isPlaying = false ∧
    (playingEngine.animationFrame 10500).scheduler.rafPending = false ∧
    (playingEngine.animationFrame 10500).state = .playing :=
  animationFrame_end_of_media playingEngine 10500
    (by with_unfolding_all decide) (by with_unfolding_all decide)
    (by with_unfolding_all decide) (by with_unfolding_all decide)
    (by with_unfolding_all decide)

/-!
## Claim C8 — idempotence of `seek`

`PlaybackEngine.seek` routes through `FrameScheduler.seekMs`, which clamps
to `[0, durationUs]` and sets the clock synchronously; the decoder-side
seek triggered by the scheduler's `seek` event never touches the
scheduler.  The lemmas below track the scheduler's clock through one
engine-level `seek`.
-/

theorem processQueue_snd (s : VideoDecoderManager) :
    (s.processQueue).2 = [] := by
  rw [VideoDecoderManager.processQueue]
  by_cases h1 : s.isDecoding ∨ ¬s.decoderConfigured ∨ s.pendingSamples.isEmpty
  · rw [if_pos h1]
  · rw [if_neg h1]
    by_cases h2 : s.maxBufferedFrames ≤ s.decodedFrames.length
    · rw [if_pos h2]
    · rw [if_neg h2]

theorem handleDecodedFrame_snd_shape (s : VideoDecoderManager)
    (fr : VideoFrameModel) (ev : MgrEvent)
    (h : ev ∈ (s.handleDecodedFrame fr).2) :
    ∃ f, ev = MgrEvent.frameDecoded f := by
  rw [VideoDecoderManager.handleDecodedFrame] at h
  split at h
  · dsimp only at h
    rw [processQueue_snd] at h
    simp at h
    exact ⟨_, h⟩
  · dsimp only at h
    simp at h
    exact ⟨_, h⟩

theorem flushOutputs_snd_shape (chunks : List EncodedChunk)
    (s : VideoDecoderManager) (ev : MgrEvent)
    (h : ev ∈ (VideoDecoderManager.flushOutputs s chunks).2) :
    ∃ f, ev = MgrEvent.frameDecoded f := by
  induction chunks generalizing s with
  | nil =>
      rw [VideoDecoderManager.flushOutputs] at h
      simp at h
  | cons c rest ih =>
      rw [VideoDecoderManager.flushOutputs] at h
      rw [List.mem_append] at h
      rcases h with h | h
      · exact handleDecodedFrame_snd_shape _ _ ev h
      · exact ih _ h

theorem flushDecoder_snd_shape (s : VideoDecoderManager) (ev : MgrEvent)
    (h : ev ∈ s.flushDecoder.2) : ∃ f, ev = MgrEvent.frameDecoded f :=
  flushOutputs_snd_shape _ _ ev h

theorem mgrSeek_snd_shape (s : VideoDecoderManager) (t : ℚ) (ev : MgrEvent)
    (h : ev ∈ (s.seek t).2) :
    (∃ st, ev = MgrEvent.stateChange st) ∨
    ∃ f, ev = MgrEvent.frameDecoded f := by
  rw [VideoDecoderManager.seek] at h
  repeat' split at h
  all_goals
    dsimp only at h
    rw [List.mem_append, List.mem_append] at h
    rcases h with (h | h) | h
    · exact Or.inl (mgrSetState_snd _ _ ev h)
    · first
        | exact Or.inr (flushDecoder_snd_shape _ ev h)
        | simp at h
    · exact Or.inl (mgrSetState_snd _ _ ev h)

theorem engSetState_scheduler (e : PlaybackEngine) (ns : PlaybackState) :
    (e.setState ns).scheduler = e.scheduler := by
  rw [PlaybackEngine.setState]
  split <;> rfl

theorem onFrameDecoded_scheduler (e : PlaybackEngine) :
    (e.onFrameDecoded).scheduler = e.scheduler := by
  rw [PlaybackEngine.onFrameDecoded]
  split
  · rfl
  · dsimp only
    split
    · split <;> rfl
    · rfl

theorem dispatchDecoderEvent_scheduler (e : PlaybackEngine) (ev : MgrEvent)
    (h : (∃ st, ev = MgrEvent.stateChange st) ∨
      ∃ f, ev = MgrEvent.frameDecoded f) :
    (e.dispatchDecoderEvent ev).scheduler = e.scheduler := by
  rcases h with ⟨st, rfl⟩ | ⟨f, rfl⟩
  · rfl
  · exact onFrameDecoded_scheduler e

theorem dispatchDecoderEvents_scheduler (evs : List MgrEvent)
    (e : PlaybackEngine)
    (h : ∀ ev ∈ evs, (∃ st, ev = MgrEvent.stateChange st) ∨
      ∃ f, ev = MgrEvent.frameDecoded f) :
    (e.dispatchDecoderEvents evs).scheduler = e.scheduler := by
  induction evs generalizing e with
  | nil => rfl
  | cons ev rest ih =>
      have h1 : (PlaybackEngine.dispatchDecoderEvents e (ev :: rest)) =
          PlaybackEngine.dispatchDecoderEvents (e.dispatchDecoderEvent ev)
            rest := rfl
      rw [h1, ih _ (fun ev' h' => h ev' (List.mem_cons_of_mem _ h'))]
      exact dispatchDecoderEvent_scheduler e ev (h ev (List.mem_cons_self _ _))

theorem onSeek_scheduler (e : PlaybackEngine) (t : ℚ) :
    (e.onSeek t).scheduler = e.scheduler := by
  rw [PlaybackEngine.onSeek]
  have hd : (PlaybackEngine.dispatchDecoderEvents
      { e with decoder := (e.decoder.seek (t / 1000)).1 }
      (e.decoder.seek (t / 1000)).2).scheduler = e.scheduler :=
    dispatchDecoderEvents_scheduler _ _
      (fun ev h => mgrSeek_snd_shape _ _ ev h)
  split
  · exact hd
  · exact hd

theorem schedPause_currentTimeUs (s : FrameScheduler) :
    (s.pause).1.currentTimeUs = s.currentTimeUs := by
  rw [FrameScheduler.pause]
  split <;> rfl

theorem schedPause_durationUs (s : FrameScheduler) :
    (s.pause).1.durationUs = s.durationUs := by
  rw [FrameScheduler.pause]
  split <;> rfl

theorem schedPause_snd (s : FrameScheduler) (ev : SchedEvent)
    (h : ev ∈ (s.pause).2) : ev = SchedEvent.pause ∨ ev = SchedEvent.play := by
  rw [FrameScheduler.pause] at h
  split at h
  · simp at h
  · simp at h
    exact Or.inl h

theorem schedPlay_currentTimeUs (s : FrameScheduler) :
    (s.play).1.currentTimeUs = s.currentTimeUs := by
  rw [FrameScheduler.play]
  split <;> rfl

theorem schedPlay_durationUs (s : FrameScheduler) :
    (s.play).1.durationUs = s.durationUs := by
  rw [FrameScheduler.play]
  split <;> rfl

theorem schedPlay_snd (s : FrameScheduler) (ev : SchedEvent)
    (h : ev ∈ (s.play).2) : ev = SchedEvent.pause ∨ ev = SchedEvent.play := by
  rw [FrameScheduler.play] at h
  split at h
  · simp at h
  · simp at h
    exact Or.inr h

theorem dispatchSched_pausePlay_id (evs : List SchedEvent)
    (e : PlaybackEngine)
    (h : ∀ ev ∈ evs, ev = SchedEvent.pause ∨ ev = SchedEvent.play) :
    e.dispatchSchedEvents evs = e := by
  induction evs generalizing e with
  | nil => rfl
  | cons ev rest ih =>
      have h1 : PlaybackEngine.dispatchSchedEvents e (ev :: rest) =
          PlaybackEngine.dispatchSchedEvents (e.dispatchSchedEvent ev) rest :=
        rfl
      have h2 := ih e (fun ev' h' => h ev' (List.mem_cons_of_mem _ h'))
      rcases h ev (List.mem_cons_self _ _) with hev | hev
      · subst hev
        rw [h1]
        exact h2
      · subst hev
        rw [h1]
        exact h2

theorem seekMs_currentTimeUs (s : FrameScheduler) (t : ℚ) :
    (s.seekMs t).1.currentTimeUs = max 0 (min (t * 1000) s.durationUs) := by
  rw [FrameScheduler.seekMs, FrameScheduler.seek]
  dsimp only
  split <;> rfl

theorem seekMs_durationUs (s : FrameScheduler) (t : ℚ) :
    (s.seekMs t).1.durationUs = s.durationUs := by
  rw [FrameScheduler.seekMs, FrameScheduler.seek]
  dsimp only
  split <;> rfl

theorem seekMs_snd (s : FrameScheduler) (t : ℚ) :
    (s.seekMs t).2 =
      [SchedEvent.seek (max 0 (min (t * 1000) s.durationUs))] := by
  rw [FrameScheduler.seekMs, FrameScheduler.seek]

theorem dispatchSeekMs_scheduler (e : PlaybackEngine) (t : ℚ) :
    (PlaybackEngine.dispatchSchedEvents
      { e with scheduler := (e.scheduler.seekMs t).1 }
      (e.scheduler.seekMs t).2).scheduler = (e.scheduler.seekMs t).1 := by
  rw [seekMs_snd]
  have h : PlaybackEngine.dispatchSchedEvents
      { e with scheduler := (e.scheduler.seekMs t).1 }
      [SchedEvent.seek (max 0 (min (t * 1000) e.scheduler.durationUs))] =
      ({ e with scheduler := (e.scheduler.seekMs t).1 } :
        PlaybackEngine).onSeek
        (max 0 (min (t * 1000) e.scheduler.durationUs)) := rfl
  rw [h, onSeek_scheduler]

theorem dispatchPause_id (e : PlaybackEngine) :
    PlaybackEngine.dispatchSchedEvents
      { e with scheduler := (e.scheduler.pause).1 } (e.scheduler.pause).2 =
      { e with scheduler := (e.scheduler.pause).1 } :=
  dispatchSched_pausePlay_id _ _ (fun ev h => schedPause_snd _ ev h)

theorem dispatchPlay_id (e : PlaybackEngine) :
    PlaybackEngine.dispatchSchedEvents
      { e with scheduler := (e.scheduler.play).1 } (e.scheduler.play).2 =
      { e with scheduler := (e.scheduler.play).1 } :=
  dispatchSched_pausePlay_id _ _ (fun ev h => schedPlay_snd _ ev h)

/-- The scheduler's clock after one engine-level `seek(t)`: the clamped
target time; the duration is untouched. -/
theorem engSeek_scheduler (e : PlaybackEngine) (t : ℚ) :
    (e.seek t).scheduler.currentTimeUs =
      max 0 (min (t * 1000) e.scheduler.durationUs) ∧
    (e.seek t).scheduler.durationUs = e.scheduler.durationUs := by
  rw [PlaybackEngine.seek]
  simp only []
  by_cases hw : e.state = .playing
  · rw [if_pos hw, if_pos hw]
    refine ⟨?_, ?_⟩
    · rw [engSetState_scheduler, dispatchPlay_id]
      dsimp only
      rw [schedPlay_currentTimeUs, dispatchSeekMs_scheduler,
        seekMs_currentTimeUs, engSetState_scheduler, dispatchPause_id]
      dsimp only
      rw [schedPause_durationUs]
    · rw [engSetState_scheduler, dispatchPlay_id]
      dsimp only
      rw [schedPlay_durationUs, dispatchSeekMs_scheduler,
        seekMs_durationUs, engSetState_scheduler, dispatchPause_id]
      dsimp only
      rw [schedPause_durationUs]
  · rw [if_neg hw, if_neg hw]
    refine ⟨?_, ?_⟩
    · rw [engSetState_scheduler, dispatchSeekMs_scheduler,
        seekMs_currentTimeUs, engSetState_scheduler]
    · rw [engSetState_scheduler, dispatchSeekMs_scheduler,
        seekMs_durationUs, engSetState_scheduler]

/-- C8 (confirmed): for t within `[0, duration]`, two consecutive
`seek(t)` calls report the same current time as one: both leave the
scheduler's clock at exactly `t` milliseconds. -/
theorem seek_idempotent (e : PlaybackEngine) (t : ℚ) (h0 : 0 ≤ t)
    (h1 : t * 1000 ≤ e.scheduler.durationUs) :
    ((e.seek t).seek t).getCurrentTimeMs = (e.seek t).getCurrentTimeMs := by
  have hclamp : max 0 (min (t * 1000) e.scheduler.durationUs) = t * 1000 := by
    rw [min_eq_left h1]
    exact max_eq_right (by nlinarith)
  have hfirst := engSeek_scheduler e t
  have hsecond := engSeek_scheduler (e.seek t) t
  rw [PlaybackEngine.getCurrentTimeMs, PlaybackEngine.getCurrentTimeMs,
    FrameScheduler.getCurrentTimeMs, FrameScheduler.getCurrentTimeMs]
  rw [hsecond.1, hfirst.1, hfirst.2, hclamp]

/-- C8 witness: seeking the loaded 10-second engine to 5000 ms twice
reports 5000 ms, same as once. -/
theorem seek_idempotent_witness :
    0 ≤ (5000 : ℚ) ∧
    (5000 : ℚ) * 1000 ≤ loadedEngine.scheduler.durationUs ∧
    ((loadedEngine.seek 5000).seek 5000).getCurrentTimeMs =
      (loadedEngine.seek 5000).getCurrentTimeMs :=
  ⟨by norm_num, by with_unfolding_all decide,
    seek_idempotent loadedEngine 5000 (by norm_num)
      (by with_unfolding_all decide)⟩

/-!
## Claim C6 — `avc1` track without a usable decoder configuration record

`createVideoDecoderConfig` throws for an `avc1`-coded track whose
description cannot be obtained; the `onReady` wrapper catches the throw and
routes it to `failLoad`, which rejects the pending load promise and emits
the `error` event the engine maps to its own `error` state.
-/

theorem mgrSetState_fst (s : VideoDecoderManager) (ns : PlaybackState) :
    (s.setState ns).1 = { s with state := ns } := by
  rw [VideoDecoderManager.setState]
  by_cases h : s.state = ns
  · rw [if_neg (not_not_intro h), ← h]
  · rw [if_pos h]

theorem failLoad_state (s : VideoDecoderManager) (msg : String) :
    (s.failLoad msg).1.state = .error := by
  rw [VideoDecoderManager.failLoad]
  dsimp only
  repeat' split
  all_goals exact mgrSetState_state s .error

theorem failLoad_promise (s : VideoDecoderManager) (msg : String)
    (hheld : s.rejectHeld = true) :
    (s.failLoad msg).1.loadPromise = some (.rejectedWith msg) := by
  rw [VideoDecoderManager.failLoad]
  dsimp only
  rw [mgrSetState_fst]
  repeat' split
  all_goals rfl

theorem failLoad_snd (s : VideoDecoderManager) (msg : String) :
    (s.failLoad msg).2 = (s.setState .error).2 ++ [MgrEvent.errorEvt msg] := by
  rw [VideoDecoderManager.failLoad]

theorem engSetState_decoder (e : PlaybackEngine) (ns : PlaybackState) :
    (e.setState ns).decoder = e.decoder := by
  rw [PlaybackEngine.setState]
  split <;> rfl

theorem onFrameDecoded_decoder (e : PlaybackEngine) :
    (e.onFrameDecoded).decoder = e.decoder := by
  rw [PlaybackEngine.onFrameDecoded]
  split
  · rfl
  · dsimp only
    split
    · split <;> rfl
    · rfl

theorem onInfoReady_decoder (e : PlaybackEngine) (info : MediaInfo) :
    (e.onInfoReady info).decoder = e.decoder := by
  rw [PlaybackEngine.onInfoReady]
  dsimp only
  split
  · split <;> exact engSetState_decoder _ _
  · split <;> rfl

theorem dispatchDecoderEvent_decoder (e : PlaybackEngine) (ev : MgrEvent) :
    (e.dispatchDecoderEvent ev).decoder = e.decoder := by
  cases ev with
  | stateChange st => rfl
  | frameDecoded f => exact onFrameDecoded_decoder e
  | infoReady info => exact onInfoReady_decoder e info
  | errorEvt msg => exact engSetState_decoder e .error

theorem dispatchDecoderEvents_decoder (evs : List MgrEvent)
    (e : PlaybackEngine) :
    (e.dispatchDecoderEvents evs).decoder = e.decoder := by
  induction evs generalizing e with
  | nil => rfl
  | cons ev rest ih =>
      have h1 : PlaybackEngine.dispatchDecoderEvents e (ev :: rest) =
          PlaybackEngine.dispatchDecoderEvents (e.dispatchDecoderEvent ev)
            rest := rfl
      rw [h1, ih, dispatchDecoderEvent_decoder]

theorem dispatch_after_error_state (e : PlaybackEngine) (pre : List MgrEvent)
    (msg : String) :
    (e.dispatchDecoderEvents (pre ++ [MgrEvent.errorEvt msg])).state =
      .error := by
  rw [PlaybackEngine.dispatchDecoderEvents, List.foldl_append]
  exact engSetState_state _ _

/-- C6 (confirmed): when the movie's first video track is `avc1`-coded and
`getCodecDescription` yields nothing (missing `avcC`, or one that cannot be
serialized and has no raw-data fallback), the demux-ready pass puts the
decoder manager in `error`, rejects the pending load promise with the
explicit message, and the engine's state becomes `error`. -/
theorem avc1_missing_description (e : PlaybackEngine) (m : Movie)
    (track : MovieTrack) (rest : List MovieTrack)
    (hv : m.videoTracks = track :: rest)
    (hcodec : track.codec.startsWith "avc1" = true)
    (hdesc : getCodecDescription track.stsd = none)
    (hheld : e.decoder.rejectHeld = true) :
    (e.onDemuxReady m).state = .error ∧
    (e.onDemuxReady m).decoder.state = .error ∧
    (e.onDemuxReady m).decoder.loadPromise =
      some (.rejectedWith
        "Missing H.264 (avcC) codec description for VideoDecoderConfig") := by
  have hcfg : createVideoDecoderConfig track =
      Except.error
        "Missing H.264 (avcC) codec description for VideoDecoderConfig" := by
    rw [createVideoDecoderConfig]
    rw [if_pos]
    constructor
    · exact hcodec
    · exact hdesc
  have hdm : e.decoder.demuxOnReady m =
      e.decoder.failLoad
        "Missing H.264 (avcC) codec description for VideoDecoderConfig" := by
    rw [VideoDecoderManager.demuxOnReady]
    simp only [hv, hcfg]
  have hestate : ∀ d : VideoDecoderManager,
      (PlaybackEngine.dispatchDecoderEvents { e with decoder := d }
        (e.decoder.failLoad
          "Missing H.264 (avcC) codec description for VideoDecoderConfig").2).state =
      .error := by
    intro d
    rw [failLoad_snd]
    exact dispatch_after_error_state _ _ _
  have hedec : ∀ d : VideoDecoderManager, ∀ evs,
      (PlaybackEngine.dispatchDecoderEvents { e with decoder := d }
        evs).decoder = d := by
    intro d evs
    rw [dispatchDecoderEvents_decoder]
  rw [PlaybackEngine.onDemuxReady]
  simp only [hdm]
  have hres : LoadPromise.isResolved
      (e.decoder.failLoad
        "Missing H.264 (avcC) codec description for VideoDecoderConfig").1.loadPromise =
      false := by
    rw [failLoad_promise _ _ hheld]
    rfl
  split
  · rw [if_neg (by simp [hres])]
    refine ⟨hestate _, ?_, ?_⟩
    · rw [hedec]
      exact failLoad_state _ _
    · rw [hedec]
      exact failLoad_promise _ _ hheld
  · refine ⟨hestate _, ?_, ?_⟩
    · rw [hedec]
      exact failLoad_state _ _
    · rw [hedec]
      exact failLoad_promise _ _ hheld

set_option maxRecDepth 100000 in
/-- C6 witness: a concrete `avc1` track whose parsed `avcC` has an empty
SPS list (so `serializeAvcC` fails) and no raw data fallback makes the
loading engine error out and reject its load promise. -/
theorem avc1_missing_description_witness :
    (loadingEngine.onDemuxReady badMovie).state = .error ∧
    (loadingEngine.onDemuxReady badMovie).decoder.state = .error ∧
    (loadingEngine.onDemuxReady badMovie).decoder.loadPromise =
      some (.rejectedWith
        "Missing H.264 (avcC) codec description for VideoDecoderConfig") :=
  avc1_missing_description loadingEngine badMovie badAvc1Track []
    rfl (by with_unfolding_all decide)
    (by with_unfolding_all decide) (by with_unfolding_all decide)

/-!
## Claim C10: exportFrame without an attached canvas

`PlaybackEngine.exportFrame` is `this.compositor?.exportFrame(...) ?? null`.
`attachCanvas` is the only engine operation that ever stores a compositor;
every other operation either leaves `compositor` untouched or maps over the
option (which preserves `none`).  The lemmas below establish that
`compositor = none` is invariant under every engine step other than
`attachCanvas`, so any trace avoiding `attachCanvas` leaves `exportFrame`
returning `null`.
-/

theorem engSetState_compositor (e : PlaybackEngine) (ns : PlaybackState) :
    (e.setState ns).compositor = e.compositor := by
  rw [PlaybackEngine.setState]
  split <;> rfl

theorem compNone_onInfoReady (e : PlaybackEngine) (info : MediaInfo)
    (h : e.compositor = none) : (e.onInfoReady info).compositor = none := by
  rw [PlaybackEngine.onInfoReady]
  simp only []
  split
  · split
    · rw [engSetState_compositor]
      show Option.map _ e.compositor = none
      rw [h]
      rfl
    · rw [engSetState_compositor]
      exact h
  · split
    · show Option.map _ e.compositor = none
      rw [h]
      rfl
    · exact h

theorem compNone_onFrameDecoded (e : PlaybackEngine)
    (h : e.compositor = none) : (e.onFrameDecoded).compositor = none := by
  rw [PlaybackEngine.onFrameDecoded]
  split
  · exact h
  · simp only []
    split
    · split
      · show Option.map _ e.compositor = none
        rw [h]
        rfl
      · exact h
    · exact h

theorem compNone_dispatchDecoderEvent (e : PlaybackEngine) (ev : MgrEvent)
    (h : e.compositor = none) :
    (e.dispatchDecoderEvent ev).compositor = none := by
  cases ev with
  | stateChange s => exact h
  | frameDecoded f => exact compNone_onFrameDecoded e h
  | infoReady info => exact compNone_onInfoReady e info h
  | errorEvt msg =>
      show (e.setState .error).compositor = none
      rw [engSetState_compositor]
      exact h

theorem compNone_dispatchDecoderEvts (e : PlaybackEngine)
    (evs : List MgrEvent) (h : e.compositor = none) :
    (e.dispatchDecoderEvents evs).compositor = none := by
  induction evs generalizing e with
  | nil => exact h
  | cons ev rest ih =>
      exact ih (e.dispatchDecoderEvent ev)
        (compNone_dispatchDecoderEvent e ev h)

theorem compNone_onPlaybackTick (e : PlaybackEngine) (t : ℚ)
    (h : e.compositor = none) : (e.onPlaybackTick t).compositor = none := by
  rw [PlaybackEngine.onPlaybackTick]
  simp only []
  split
  · split
    · refine compNone_dispatchDecoderEvts _ _ ?_
      show Option.map _ e.compositor = none
      rw [h]
      rfl
    · exact h
  · exact h

theorem compNone_onSeek (e : PlaybackEngine) (t : ℚ)
    (h : e.compositor = none) : (e.onSeek t).compositor = none := by
  rw [PlaybackEngine.onSeek]
  have h2 : ((PlaybackEngine.mk (e.decoder.seek (t / 1000)).1 e.scheduler
      e.compositor e.config e.state e.mediaInfo
      e.lastRenderedFrame).dispatchDecoderEvents
        (e.decoder.seek (t / 1000)).2).compositor = none :=
    compNone_dispatchDecoderEvts _ _ h
  split
  · show Option.map _ _ = none
    rw [h2]
    rfl
  · exact h2

theorem compNone_dispatchSchedEvent (e : PlaybackEngine) (ev : SchedEvent)
    (h : e.compositor = none) :
    (e.dispatchSchedEvent ev).compositor = none := by
  cases ev with
  | tick t d => exact compNone_onPlaybackTick e t h
  | seek t => exact compNone_onSeek e t h
  | play => exact h
  | pause => exact h

theorem compNone_dispatchSchedEvts (e : PlaybackEngine)
    (evs : List SchedEvent) (h : e.compositor = none) :
    (e.dispatchSchedEvents evs).compositor = none := by
  induction evs generalizing e with
  | nil => exact h
  | cons ev rest ih =>
      exact ih (e.dispatchSchedEvent ev) (compNone_dispatchSchedEvent e ev h)

theorem compNone_play (e : PlaybackEngine) (h : e.compositor = none) :
    (e.play).compositor = none := by
  rw [PlaybackEngine.play]
  split
  · exact compNone_dispatchSchedEvts _ _
      ((engSetState_compositor e .playing).trans h)
  · exact h

theorem compNone_pause (e : PlaybackEngine) (h : e.compositor = none) :
    (e.pause).compositor = none := by
  rw [PlaybackEngine.pause]
  split
  · exact compNone_dispatchSchedEvts _ _
      ((engSetState_compositor e .paused).trans h)
  · exact h

theorem compNone_togglePlayback (e : PlaybackEngine)
    (h : e.compositor = none) : (e.togglePlayback).compositor = none := by
  rw [PlaybackEngine.togglePlayback]
  split
  · exact compNone_pause e h
  · exact compNone_play e h

theorem compNone_seek (e : PlaybackEngine) (t : ℚ)
    (h : e.compositor = none) : (e.seek t).compositor = none := by
  rw [PlaybackEngine.seek]
  simp only []
  split
  · rw [engSetState_compositor]
    exact compNone_dispatchSchedEvts _ _
      (compNone_dispatchSchedEvts _ _
        ((engSetState_compositor _ _).trans
          (compNone_dispatchSchedEvts _ _ h)))
  · rw [engSetState_compositor]
    exact compNone_dispatchSchedEvts _ _
      ((engSetState_compositor _ _).trans h)

theorem compNone_skipForward (e : PlaybackEngine) (a : ℚ)
    (h : e.compositor = none) : (e.skipForward a).compositor = none := by
  rw [PlaybackEngine.skipForward]
  exact compNone_seek _ _ h

theorem compNone_skipBackward (e : PlaybackEngine) (a : ℚ)
    (h : e.compositor = none) : (e.skipBackward a).compositor = none := by
  rw [PlaybackEngine.skipBackward]
  exact compNone_seek _ _ h

theorem compNone_goToStart (e : PlaybackEngine)
    (h : e.compositor = none) : (e.goToStart).compositor = none := by
  rw [PlaybackEngine.goToStart]
  exact compNone_seek _ _ h

theorem compNone_goToEnd (e : PlaybackEngine)
    (h : e.compositor = none) : (e.goToEnd).compositor = none := by
  rw [PlaybackEngine.goToEnd]
  split
  · exact compNone_seek _ _ h
  · exact h

theorem compNone_setPlaybackRate (e : PlaybackEngine) (r : ℚ)
    (h : e.compositor = none) : (e.setPlaybackRate r).compositor = none := by
  rw [PlaybackEngine.setPlaybackRate]
  exact h

theorem compNone_setLoop (e : PlaybackEngine) (loop : Bool)
    (h : e.compositor = none) : (e.setLoop loop).compositor = none := by
  rw [PlaybackEngine.setLoop]
  exact h

theorem compNone_load (e : PlaybackEngine) (url : String)
    (h : e.compositor = none) : (e.load url).compositor = none := by
  rw [PlaybackEngine.load]
  exact compNone_dispatchDecoderEvts _ _
    ((engSetState_compositor e .loading).trans h)

theorem compNone_animationFrame (e : PlaybackEngine) (ts : ℚ)
    (h : e.compositor = none) : (e.animationFrame ts).compositor = none := by
  rw [PlaybackEngine.animationFrame]
  split
  · exact compNone_dispatchSchedEvts _ _ h
  · exact h

theorem compNone_onFetchResolved (e : PlaybackEngine) (n : ℕ)
    (h : e.compositor = none) : (e.onFetchResolved n).compositor = none := by
  rw [PlaybackEngine.onFetchResolved]
  exact compNone_dispatchDecoderEvts _ _ h

theorem compNone_onFetchRejected (e : PlaybackEngine) (err : FetchError)
    (h : e.compositor = none) : (e.onFetchRejected err).compositor = none := by
  rw [PlaybackEngine.onFetchRejected]
  exact compNone_dispatchDecoderEvts _ _ h

theorem compNone_onFetchTimeout (e : PlaybackEngine)
    (h : e.compositor = none) : (e.onFetchTimeout).compositor = none := by
  rw [PlaybackEngine.onFetchTimeout]
  exact compNone_dispatchDecoderEvts _ _ h

theorem compNone_onDemuxReady (e : PlaybackEngine) (m : Movie)
    (h : e.compositor = none) : (e.onDemuxReady m).compositor = none := by
  rw [PlaybackEngine.onDemuxReady]
  simp only []
  have h2 : (({ e with
      decoder := (e.decoder.demuxOnReady m).1 }).dispatchDecoderEvents
        (e.decoder.demuxOnReady m).2).compositor = none :=
    compNone_dispatchDecoderEvts _ _ h
  split
  · split
    · split
      · rw [engSetState_compositor]
        exact h2
      · exact h2
    · exact h2
  · exact h2

theorem compNone_onVideoSamples (e : PlaybackEngine)
    (samples : List DemuxedSample) (h : e.compositor = none) :
    (e.onVideoSamples samples).compositor = none := by
  rw [PlaybackEngine.onVideoSamples]
  exact compNone_dispatchDecoderEvts _ _ h

theorem compNone_onDecoderOutput (e : PlaybackEngine)
    (h : e.compositor = none) : (e.onDecoderOutput).compositor = none := by
  rw [PlaybackEngine.onDecoderOutput]
  exact compNone_dispatchDecoderEvts _ _ h

theorem compNone_engineStep (e : PlaybackEngine) (op : EngineOp)
    (hop : op ≠ .attachCanvas) (h : e.compositor = none) :
    (engineStep e op).compositor = none := by
  cases op with
  | play => exact compNone_play e h
  | pause => exact compNone_pause e h
  | togglePlayback => exact compNone_togglePlayback e h
  | seek t => exact compNone_seek e t h
  | skipForward a => exact compNone_skipForward e a h
  | skipBackward a => exact compNone_skipBackward e a h
  | goToStart => exact compNone_goToStart e h
  | goToEnd => exact compNone_goToEnd e h
  | setPlaybackRate r => exact compNone_setPlaybackRate e r h
  | setLoop l => exact compNone_setLoop e l h
  | load url => exact compNone_load e url h
  | attachCanvas => exact absurd rfl hop
  | animationFrame ts => exact compNone_animationFrame e ts h
  | fetchResolved n => exact compNone_onFetchResolved e n h
  | fetchRejected err => exact compNone_onFetchRejected e err h
  | fetchTimeout => exact compNone_onFetchTimeout e h
  | demuxReady m => exact compNone_onDemuxReady e m h
  | videoSamples samples => exact compNone_onVideoSamples e samples h
  | decoderOutput => exact compNone_onDecoderOutput e h

theorem compNone_foldl (ops : List EngineOp) (e : PlaybackEngine)
    (hops : EngineOp.attachCanvas ∉ ops) (h : e.compositor = none) :
    (ops.foldl engineStep e).compositor = none := by
  induction ops generalizing e with
  | nil => exact h
  | cons op rest ih =>
      have hop : op ≠ .attachCanvas := by
        intro heq
        exact hops (heq ▸ List.mem_cons_self op rest)
      exact ih (engineStep e op)
        (fun hm => hops (List.mem_cons_of_mem op hm))
        (compNone_engineStep e op hop h)

/-- C10: if no canvas has ever been attached — i.e. the engine trace from a
fresh `PlaybackEngine` contains no `attachCanvas` operation, so `compositor`
is still `null` — then `exportFrame(format, quality)` returns `null` for
every format and quality argument, rather than throwing or returning a data
URL. -/
theorem exportFrame_no_canvas (ops : List EngineOp) (format : String)
    (quality : ℚ) (hops : EngineOp.attachCanvas ∉ ops) :
    (runEngine ops).exportFrame format quality = none := by
  have hc : (runEngine ops).compositor = none :=
    compNone_foldl ops (PlaybackEngine.new DEFAULT_CONFIG) hops rfl
  rw [PlaybackEngine.exportFrame, hc]
  rfl

/-- C10 witness: a trace that loads a URL and starts playback, but never
attaches a canvas, leaves `exportFrame` returning `null`. -/
theorem exportFrame_no_canvas_witness :
    EngineOp.attachCanvas ∉
        [EngineOp.load "video.mp4", EngineOp.play, EngineOp.decoderOutput] ∧
      (runEngine
          [EngineOp.load "video.mp4", EngineOp.play,
            EngineOp.decoderOutput]).exportFrame "image/png" (92/100) =
        none :=
  ⟨by decide,
   exportFrame_no_canvas
     [EngineOp.load "video.mp4", EngineOp.play, EngineOp.decoderOutput]
     "image/png" (92/100) (by decide)⟩

end Playback
